import Mathlib

/-!
Shallow embedding of the BCZ programming-language compiler front-end
(`src/token.rs`, `src/error.rs`, `src/ast_node.rs`), together with theorems
settling the behavioural claims about the lexer, the global-separation pass,
the dependency-analysis pass, the constant-folding pass and the
code-generation engine.
-/

namespace BCZ

/-- 1-based source position `(line, column)`; the source stores these as
`NonZeroUsize` pairs. -/
structure Pos where
  line : Nat
  col : Nat
deriving DecidableEq, Repr

/-- `token.rs` `Separator`. -/
inductive Separator where
  | Semicolon | Comma | Period
  | OpenParenthesis | CloseParenthesis
  | OpenSquareParenthesis | CloseSquareParenthesis
  | OpenCurlyParenthesis | CloseCurlyParenthesis
deriving DecidableEq, Repr

/-- `token.rs` `Operator` (operator-symbol bases). -/
inductive TokenOperator where
  | AddRead | SubtractNegate | MultiplyDerefrence | DivideReciprocal | ModuloPercent
deriving DecidableEq, Repr

/-- `error.rs` `Error`.  `io::Error` payloads are modelled as strings; the
operator-symbol payloads use the token operator-symbol type. -/
inductive Error where
  | InvalidShortArgument (arg : String)
  | InvalidLongArgument (arg : String)
  | NoOptionContinuation
  | CouldNotOpenFile (ioError : String)
  | CouldNotReadLine
  | FeatureNotYetImplemented (feature : String)
  | InvalidTokenStartChar (c : Char)
  | InvalidNumericalLiteralBase (c : Char)
  | InvalidDigitForBase (c : Char) (base : Nat)
  | NumericalLiteralTooLarge
  | InvalidKeyword (keyword : String)
  | InvalidOperator (op : String)
  | TooManyOpenParentheses
  | TooManyCloseParentheses
  | BlankExpression
  | ParenthesisMismatch (openSep closeSep : Separator)
  | NoOperatorBase
  | BinaryOperatorNotUsedOnExpressions
  | OperatorUsedOnNothing
  | InvalidPrefixOperatorSymbol (symbol : TokenOperator)
  | InvalidInfixOperatorSymbol (symbol : TokenOperator)
  | FunctionParametersWithoutBody
  | UnterminatedCharLiteral
  | EmptyCharLiteral
  | NothingEscaped
  | InvalidEscapeSequence (sequence : String)
  | MultipleCharsInCharLiteral
  | UnterminatedStringLiteral
  | MetadataItemWithoutChildNode
  | GlobalAugmentedOperator
  | DiscardedGlobalFunctionCall
  | GlobalAssignmentToNonIdentifier
  | GlobalVariableConflict (name : String)
  | ExpectedIdentifier
  | InvalidDependency
  | TooManyFunctionParameters
  | GlobalLValueAssignment
  | LValueFunctionCall
  | LValueFunctionDefinition
  | MultipleEntryPoints
  | TooManyFunctionArguments
  | LinkNotUsedOnFunction
  | InvalidType
  | InvalidTypeWidth
  | UnableToWriteObject
  | CouldNotGetTarget (target : String)
  | InvalidArchitectureBitWidth (width : Nat)
  | UnableToEmitObjectFile (message : String)
  | InvalidLValue
deriving DecidableEq, Repr

/-- An abnormal outcome of a pass: an `Error` paired with the source position
of the offending node, or a Rust panic (`unreachable!`, `todo!`, out-of-bounds
indexing). -/
inductive Issue where
  | error (e : Error) (pos : Pos)
  | panic
deriving DecidableEq, Repr

/-- Modelled from the spec: the `MainData` structure of the compiler's current
`main.rs` is not under `src/` (the `main.rs` present there is an earlier
revision without it).  Per §4.4/§9 of the spec, `int_bit_width` is the
configurable pointer-sized integer width of the compilation unit, and
`int_max_value` / `sign_bit_mask` are derived from it: the all-ones mask of the
active width and its top bit. -/
structure MainData where
  intBitWidth : Nat
deriving DecidableEq, Repr

/-- Modelled from the spec: `main_data.int_max_value`, the all-ones value of
the active integer width. -/
def MainData.intMaxValue (md : MainData) : Nat := 2 ^ md.intBitWidth - 1

/-- Modelled from the spec: `main_data.sign_bit_mask`, the top bit of the
active integer width. -/
def MainData.signBitMask (md : MainData) : Nat := 2 ^ (md.intBitWidth - 1)

/-- `ast_node.rs` `Operation`. -/
inductive Operation where
  | IntegerAdd | FloatAdd
  | IntegerSubtract | FloatSubtract
  | IntegerMultiply | FloatMultiply
  | SignedDivide | UnsignedDivide | FloatDivide
  | SignedTruncatedModulo | UnsignedModulo | FloatTruncatedModulo
  | Read
  | IntegerNegate | FloatNegate
  | Dereference | TakeReference
  | BitwiseAnd | BitwiseOr | BitwiseXor
  | LogicalNotShortCircuitAnd | LogicalNotShortCircuitOr | LogicalNotShortCircuitXor
  | LogicalShortCircuitAnd | LogicalShortCircuitOr | LogicalShortCircuitXor
deriving DecidableEq, Repr

/-- `ast_node.rs` `Operator`. -/
inductive Operator where
  | Assignment
  | Normal (op : Operation)
  | Augmented (op : Operation)
  | LValueAssignment
deriving DecidableEq, Repr

/-- `ast_node.rs` `Metadata`. -/
inductive Metadata where
  | EntryPoint
  | Link
deriving DecidableEq, Repr

mutual

/-- `ast_node.rs` `AstNodeVariant`; `u64` constants are naturals below `2^64`
and boxed slices are lists.  The string-literal variant is named `Str` because
`String` is taken by Lean's string type. -/
inductive AstNodeVariant where
  | Constant (value : Nat)
  | Operator (op : Operator) (operands : List AstNode)
  | Identifier (name : String)
  | Block (children : List AstNode) (resultIsUndefined : Bool)
  | FunctionCall (function : AstNode) (arguments : List AstNode)
  | FunctionDefinition (parameters : List AstNode) (body : AstNode)
  | Str (s : String)
  | Metadata (m : Metadata) (child : AstNode)

/-- `ast_node.rs` `AstNode`: a variant plus the start position and the
position one past the end. -/
inductive AstNode where
  | mk (variant : AstNodeVariant) (start : Pos) (stop : Pos)

end

/-- The `variant` field of an `AstNode`. -/
def AstNode.variant : AstNode → AstNodeVariant
  | .mk v _ _ => v

/-- The `start` field of an `AstNode`. -/
def AstNode.start : AstNode → Pos
  | .mk _ s _ => s

/-- The `end` field of an `AstNode` (`end` is a reserved word in Lean). -/
def AstNode.stop : AstNode → Pos
  | .mk _ _ e => e

/-- The placeholder node `separate_globals` swaps into an operand slot before
moving the slot's contents out: `Constant(0)` with a dummy `1:1` span. -/
def dummyNode : AstNode :=
  .mk (.Constant 0) ⟨1, 1⟩ ⟨1, 1⟩

/-- The global table of `separate_globals`, a `HashMap<Box<str>, AstNode>`
modelled as an association list. -/
def GlobalTable := List (String × AstNode)

/-- `HashMap::insert` semantics: insert the pair, replacing and returning any
value previously stored under the key. -/
def tableInsert (table : GlobalTable) (key : String) (value : AstNode) :
    GlobalTable × Option AstNode :=
  match table with
  | [] => ([(key, value)], none)
  | (k, v) :: rest =>
    if k = key then ((k, value) :: rest, some v)
    else
      let (rest', old) := tableInsert rest key value
      ((k, v) :: rest', old)

/-- `HashMap` lookup on the association-list model. -/
def tableGet (table : GlobalTable) (key : String) : Option AstNode :=
  match table with
  | [] => none
  | (k, v) :: rest => if k = key then some v else tableGet rest key

mutual

/-- `ast_node.rs` `separate_globals`.  The Rust function mutates the node and
the global table in place and returns `Result<(), (Error, pos)>`; the embedding
returns the final node, the final table and the optional abnormal outcome, so
that the tree and table state left behind by a failing run is observable. -/
def separateGlobals (node : AstNode) (table : GlobalTable) (willBeDiscarded : Bool) :
    AstNode × GlobalTable × Option Issue :=
  match node with
  | .mk variant start stop =>
    match variant with
    | .Operator op operands =>
      match op with
      | .Assignment =>
        match operands with
        | identifierNode :: operandNode :: restOperands =>
          let selfAfterSwap : AstNode :=
            .mk (.Operator .Assignment (dummyNode :: dummyNode :: restOperands)) start stop
          let (operandNode', table', err) := separateGlobals operandNode table false
          match err with
          | some e => (selfAfterSwap, table', some e)
          | none =>
            match identifierNode.variant with
            | .Identifier name =>
              let (table'', old) := tableInsert table' name operandNode'
              match old with
              | some _ => (selfAfterSwap, table'',
                  some (.error (.GlobalVariableConflict name) start))
              | none => (identifierNode, table'', none)
            | _ => (selfAfterSwap, table', some (.error .GlobalAssignmentToNonIdentifier start))
        | _ => (node, table, some .panic)
      | .Normal _ =>
        let (operands', table', err) := separateGlobalsList operands table willBeDiscarded
        (.mk (.Operator op operands') start stop, table', err)
      | .Augmented _ => (node, table, some (.error .GlobalAugmentedOperator start))
      | .LValueAssignment => (node, table, some (.error .GlobalLValueAssignment start))
    | .Constant _ => (node, table, none)
    | .FunctionCall _ _ =>
      if willBeDiscarded then (node, table, some (.error .DiscardedGlobalFunctionCall start))
      else (node, table, none)
    | .Block children isResultUndefined =>
      if isResultUndefined && children.isEmpty then (node, table, none)
      else if children.length != 1 || (isResultUndefined && children.length != 0) then
        (node, table, some (.error (.FeatureNotYetImplemented "Global blocks") start))
      else
        match children with
        | child :: restChildren =>
          let selfAfterSwap : AstNode :=
            .mk (.Block (dummyNode :: restChildren) isResultUndefined) start stop
          let (child', table', err) := separateGlobals child table willBeDiscarded
          match err with
          | some e => (selfAfterSwap, table', some e)
          | none => (child', table', none)
        | [] => (node, table, some .panic)
    | .FunctionDefinition _ _ => (node, table, none)
    | .Identifier _ => (node, table, none)
    | .Metadata m child =>
      let (child', table', err) := separateGlobals child table willBeDiscarded
      (.mk (.Metadata m child') start stop, table', err)
    | .Str _ => (node, table, none)

/-- The `for operand in operands { operand.separate_globals(..)? }` loop of the
`Operator::Normal` arm: operands are separated in place left to right, stopping
at the first abnormal outcome (operands after it are left untouched). -/
def separateGlobalsList (nodes : List AstNode) (table : GlobalTable) (willBeDiscarded : Bool) :
    List AstNode × GlobalTable × Option Issue :=
  match nodes with
  | [] => ([], table, none)
  | n :: rest =>
    let (n', table', err) := separateGlobals n table willBeDiscarded
    match err with
    | some e => (n' :: rest, table', some e)
    | none =>
      let (rest', table'', err') := separateGlobalsList rest table' willBeDiscarded
      (n' :: rest', table'', err')

end

/-- A top-level assignment `name = value` used as a concrete test tree. -/
def topLevelAssignment (name : String) (value : Nat) (line : Nat) : AstNode :=
  .mk (.Operator .Assignment
        [.mk (.Identifier name) ⟨line, 1⟩ ⟨line, 2⟩, .mk (.Constant value) ⟨line, 5⟩ ⟨line, 6⟩])
      ⟨line, 1⟩ ⟨line, 6⟩

/-- A root node holding two top-level assignments to the same name `x`
(`(x = 5) + (x = 6)`), reaching `separate_globals` through the
`Operator::Normal` recursion. -/
def duplicateGlobalTree : AstNode :=
  .mk (.Operator (.Normal .IntegerAdd) [topLevelAssignment "x" 5 1, topLevelAssignment "x" 6 2])
      ⟨1, 1⟩ ⟨2, 6⟩

/-- An LLVM integer type as requested from the `llvm-nhb` context
(`int_8_type` … `int_128_type`, and the pointer-sized `main_data.int_type`),
identified by its bit width. -/
inductive LlvmType where
  | int (bits : Nat)
deriving DecidableEq, Repr

/-- `Type::size_in_bits` under the active data layout. -/
def LlvmType.sizeInBits : LlvmType → Nat
  | .int bits => bits

/-- `main_data.int_type`, the unit's pointer-sized integer type. -/
def MainData.intType (md : MainData) : LlvmType := .int md.intBitWidth

/-- `ast_node.rs` `type_from_width`: decode a node in type position into an
LLVM integer type together with a signedness flag. -/
def AstNode.typeFromWidth (node : AstNode) (md : MainData) :
    Except (Error × Pos) (LlvmType × Bool) :=
  match node with
  | .mk variant start _ =>
    match variant with
    | .Constant value =>
      let isNegative : Bool := (md.signBitMask &&& value) != 0
      let byteWidth : Nat :=
        if isNegative then ((value ^^^ md.intMaxValue) + 1) % 2 ^ 64 else value
      match byteWidth with
      | 1 => .ok (.int 8, isNegative)
      | 2 => .ok (.int 16, isNegative)
      | 4 => .ok (.int 32, isNegative)
      | 8 => .ok (.int 64, isNegative)
      | 16 => .ok (.int 128, isNegative)
      | _ => .error (.InvalidTypeWidth, start)
    | _ => .error (.InvalidType, start)

/-- The folding decision of `const_evaluate`'s `Operator` arm (the
`Operation::IntegerNegate` case with its `if let Constant(value) = operands[0]`
test, `ast_node.rs` line 738), applied after the operands have been
const-evaluated in place.  The `operands[0]` indexing panics on a
zero-operand negate, so that case is `Issue.panic`; a negate whose first
operand is a `Constant` folds; everything else leaves the node unevaluated. -/
def constEvaluateOperator (md : MainData) (op : Operator) (operands' : List AstNode)
    (start stop : Pos) : Except Issue AstNode :=
  match op, operands' with
  | .Normal .IntegerNegate, [] => .error .panic
  | .Normal .IntegerNegate, .mk (.Constant value) _ _ :: _ =>
    .ok (.mk (.Constant ((((value ^^^ md.intMaxValue) + 1) % 2 ^ 64) &&& md.intMaxValue))
      start stop)
  | _, _ => .ok (.mk (.Operator op operands') start stop)

mutual

/-- `ast_node.rs` `const_evaluate`.  The `const_evaluated_globals` and
`variable_dependencies` parameters of the source are threaded through the
recursion without ever being read or written, so the embedding omits them; of
`main_data` only `int_max_value` is read.  The source never constructs an
`Err` in this function, so the only abnormal outcome is the `operands[0]`
panic of the negate fold, propagated like the source's `?`. -/
def constEvaluate (node : AstNode) (md : MainData) (isLinkFunction : Bool) :
    Except Issue AstNode :=
  match node with
  | .mk variant start stop =>
    match variant with
    | .Operator op operands =>
      match constEvaluateList operands md isLinkFunction with
      | .error e => .error e
      | .ok operands' => constEvaluateOperator md op operands' start stop
    | .FunctionDefinition parameters body =>
      match constEvaluate body md false with
      | .error e => .error e
      | .ok body' =>
        match (if isLinkFunction then constEvaluateList parameters md false
               else .ok parameters) with
        | .error e => .error e
        | .ok parameters' => .ok (.mk (.FunctionDefinition parameters' body') start stop)
    | .Metadata m child =>
      match m with
      | .EntryPoint =>
        match constEvaluate child md isLinkFunction with
        | .error e => .error e
        | .ok child' => .ok (.mk (.Metadata m child') start stop)
      | .Link =>
        match constEvaluate child md true with
        | .error e => .error e
        | .ok child' => .ok (.mk (.Metadata m child') start stop)
    | .Block children b =>
      match constEvaluateList children md isLinkFunction with
      | .error e => .error e
      | .ok children' => .ok (.mk (.Block children' b) start stop)
    | .Constant _ => .ok node
    | .FunctionCall f args =>
      match constEvaluate f md isLinkFunction with
      | .error e => .error e
      | .ok f' =>
        match constEvaluateList args md isLinkFunction with
        | .error e => .error e
        | .ok args' => .ok (.mk (.FunctionCall f' args') start stop)
    | .Str _ => .ok node
    | .Identifier _ => .ok node

/-- Elementwise in-place `const_evaluate` over a boxed slice of nodes, the
first child's panic or error propagating like the source's `?`. -/
def constEvaluateList (nodes : List AstNode) (md : MainData) (isLinkFunction : Bool) :
    Except Issue (List AstNode) :=
  match nodes with
  | [] => .ok []
  | n :: rest =>
    match constEvaluate n md isLinkFunction with
    | .error e => .error e
    | .ok n' =>
      match constEvaluateList rest md isLinkFunction with
      | .error e => .error e
      | .ok rest' => .ok (n' :: rest')

end

/-- `ast_node.rs` `is_function`. -/
def AstNode.isFunction : AstNode → Bool
  | .mk (.FunctionDefinition _ _) _ _ => true
  | .mk (.Metadata _ child) _ _ => child.isFunction
  | .mk (.Constant _) _ _ => false
  | .mk (.Operator _ _) _ _ => false
  | .mk (.Identifier _) _ _ => false
  | .mk (.Block _ _) _ _ => false
  | .mk (.FunctionCall _ _) _ _ => false
  | .mk (.Str _) _ _ => false

/-- The three `HashSet`s threaded by reference through
`get_variable_dependencies`, modelled as lists with insert-if-absent. -/
structure DepState where
  variableDependencies : List String
  importDependencies : List String
  localVariables : List String
deriving DecidableEq, Repr

/-- The parameter scan of `get_variable_dependencies`' ordinary
`FunctionDefinition` branch: build the fresh local-variable set from the
parameter identifiers, failing with `ExpectedIdentifier` on any non-identifier
parameter. -/
def collectParameterNames (parameters : List AstNode) (acc : List String) :
    Except Issue (List String) :=
  match parameters with
  | [] => .ok acc
  | p :: rest =>
    match p with
    | .mk (.Identifier name) _ _ => collectParameterNames rest (acc.insert name)
    | .mk _ start _ => .error (.error .ExpectedIdentifier start)

mutual

/-- `ast_node.rs` `get_variable_dependencies`.  The mutated-by-reference sets
become a returned `DepState`; `local_variables.clone()` at a call site becomes
restoring the caller's local set after the recursive call. -/
def getVariableDependencies (node : AstNode) (st : DepState)
    (isLValue isLinkFunction : Bool) : Except Issue DepState :=
  match node with
  | .mk variant start _ =>
    if isLinkFunction && !node.isFunction then
      .error (.error .LinkNotUsedOnFunction start)
    else
      match variant with
      | .Block subExpressions _ =>
        getVariableDependenciesBlock subExpressions st isLValue start
      | .Constant _ => .ok st
      | .FunctionCall function arguments =>
        if isLValue then .error (.error .LValueFunctionCall start)
        else
          match getVariableDependencies function
              { st with localVariables := st.localVariables } false false with
          | .error e => .error e
          | .ok st₁ =>
            getVariableDependenciesArgs arguments
              { st₁ with localVariables := st.localVariables } st.localVariables
      | .FunctionDefinition parameters body =>
        if isLValue then .error (.error .LValueFunctionDefinition start)
        else
          match isLinkFunction with
          | false =>
            match collectParameterNames parameters [] with
            | .error e => .error e
            | .ok freshLocals =>
              match getVariableDependencies body
                  { st with localVariables := freshLocals } false false with
              | .error e => .error e
              | .ok st' => .ok { st' with localVariables := st.localVariables }
          | true =>
            match getVariableDependenciesList parameters st false with
            | .error e => .error e
            | .ok st' => getVariableDependencies body st' false false
      | .Identifier name =>
        match isLValue with
        | false =>
          if name ∈ st.localVariables then .ok st
          else .ok { st with variableDependencies := st.variableDependencies.insert name }
        | true => .ok { st with localVariables := st.localVariables.insert name }
      | .Metadata m child =>
        match m with
        | .EntryPoint => getVariableDependencies child st isLValue isLinkFunction
        | .Link => getVariableDependencies child st isLValue true
      | .Operator op operands =>
        match op with
        | .Assignment =>
          match operands with
          | lhs :: rhs :: _ =>
            match getVariableDependencies lhs st true false with
            | .error e => .error e
            | .ok st₁ => getVariableDependencies rhs st₁ false false
          | _ => .error .panic
        | .Augmented operation =>
          match operation with
          | .Dereference | .IntegerNegate | .FloatNegate | .Read | .TakeReference =>
            .error (.error (.FeatureNotYetImplemented "Augmented unary operators") start)
          | _ =>
            match operands with
            | lhs :: rhs :: _ =>
              match getVariableDependencies lhs st true false with
              | .error e => .error e
              | .ok st₁ => getVariableDependencies rhs st₁ false false
            | _ => .error .panic
        | .Normal operation =>
          match operation with
          | .Read => getVariableDependenciesList operands st true
          | _ => getVariableDependenciesList operands st false
        | .LValueAssignment => getVariableDependenciesList operands st true
      | .Str _ => .ok st

/-- The per-element loop of the `Block` arm: each sub-expression is rejected
in l-value position (`FeatureNotYetImplemented("L-value blocks")` at the
block's start) and otherwise searched as an r-value. -/
def getVariableDependenciesBlock (nodes : List AstNode) (st : DepState)
    (isLValue : Bool) (start : Pos) : Except Issue DepState :=
  match nodes with
  | [] => .ok st
  | n :: rest =>
    match isLValue with
    | true => .error (.error (.FeatureNotYetImplemented "L-value blocks") start)
    | false =>
      match getVariableDependencies n st false false with
      | .error e => .error e
      | .ok st' => getVariableDependenciesBlock rest st' isLValue start

/-- The argument loop of the `FunctionCall` arm: every argument is searched
with an independent clone of the caller's local-variable set. -/
def getVariableDependenciesArgs (nodes : List AstNode) (st : DepState)
    (outerLocals : List String) : Except Issue DepState :=
  match nodes with
  | [] => .ok st
  | n :: rest =>
    match getVariableDependencies n { st with localVariables := outerLocals } false false with
    | .error e => .error e
    | .ok st' =>
      getVariableDependenciesArgs rest { st' with localVariables := st.localVariables }
        outerLocals

/-- An operand loop sharing the local-variable set across iterations, with a
fixed l-value flag (`Normal` operands, `Read` operands, `LValueAssignment`
operands, link-function parameters). -/
def getVariableDependenciesList (nodes : List AstNode) (st : DepState)
    (isLValue : Bool) : Except Issue DepState :=
  match nodes with
  | [] => .ok st
  | n :: rest =>
    match getVariableDependencies n st isLValue false with
    | .error e => .error e
    | .ok st' => getVariableDependenciesList rest st' isLValue

end

mutual

/-- Statement-side syntactic predicate (not a source function): `true` when a
subtree contains no `FunctionDefinition` node. -/
def AstNode.functionDefinitionFree : AstNode → Bool
  | .mk (.Constant _) _ _ => true
  | .mk (.Identifier _) _ _ => true
  | .mk (.Str _) _ _ => true
  | .mk (.Operator _ operands) _ _ => functionDefinitionFreeList operands
  | .mk (.Block children _) _ _ => functionDefinitionFreeList children
  | .mk (.FunctionCall f args) _ _ => f.functionDefinitionFree && functionDefinitionFreeList args
  | .mk (.FunctionDefinition _ _) _ _ => false
  | .mk (.Metadata _ child) _ _ => child.functionDefinitionFree

/-- `functionDefinitionFree` over a list of nodes. -/
def functionDefinitionFreeList : List AstNode → Bool
  | [] => true
  | n :: rest => n.functionDefinitionFree && functionDefinitionFreeList rest

end

/-- Relation between dependency states: the local set grows monotonically and
every newly recorded dependency was not in the starting local set. -/
def DepExtends (st st' : DepState) : Prop :=
  (∀ x, x ∈ st.localVariables → x ∈ st'.localVariables) ∧
  (∀ x, x ∈ st'.variableDependencies → x ∈ st.variableDependencies ∨ x ∉ st.localVariables)

/-- The parameter node `a` of the dependency-analysis test trees. -/
def paramA : AstNode := .mk (.Identifier "a") ⟨1, 8⟩ ⟨1, 9⟩

/-- The parameter node `b` of the nested dependency-analysis test tree. -/
def paramB : AstNode := .mk (.Identifier "b") ⟨1, 15⟩ ⟨1, 16⟩

/-- `fn(a) { fn(b) { a } }`: an ordinary function whose body holds a nested
function definition reading the outer parameter name. -/
def nestedDefTree : AstNode :=
  .mk (.FunctionDefinition [paramA]
        (.mk (.FunctionDefinition [paramB] (.mk (.Identifier "a") ⟨1, 18⟩ ⟨1, 19⟩))
          ⟨1, 12⟩ ⟨1, 20⟩))
      ⟨1, 5⟩ ⟨1, 20⟩

/-- `fn(a) { a + g }`: the spec's dependency-isolation example. -/
def simpleFnTree : AstNode :=
  .mk (.FunctionDefinition [paramA]
        (.mk (.Operator (.Normal .IntegerAdd)
          [.mk (.Identifier "a") ⟨1, 12⟩ ⟨1, 13⟩, .mk (.Identifier "g") ⟨1, 16⟩ ⟨1, 17⟩])
          ⟨1, 12⟩ ⟨1, 17⟩))
      ⟨1, 5⟩ ⟨1, 18⟩

/-- `token.rs` `Keyword`. -/
inductive Keyword where
  | EntryPoint
deriving DecidableEq, Repr

/-- `token.rs` `OperatorType`. -/
inductive OperatorType where
  | SignedLogicalShortCircuit
  | UnsignedLogicalNotShortCircuit
  | FloatingPointBitwise
deriving DecidableEq, Repr

/-- `token.rs` `TokenVariant`. -/
inductive TokenVariant where
  | NumericalLiteral (value : Nat)
  | StringLiteral (text : String)
  | Identifier (text : String)
  | Keyword (k : Keyword)
  | Separator (s : Separator)
  | Operator (op : Option TokenOperator) (ty : OperatorType) (isNegated : Bool)
deriving DecidableEq, Repr

/-- The strum-derived `TokenVariantDiscriminants`. -/
inductive TokenVariantDiscriminants where
  | NumericalLiteral | StringLiteral | Identifier | Keyword | Separator | Operator
deriving DecidableEq, Repr

/-- `token.rs` `Token`. -/
structure Token where
  variant : TokenVariant
  line : Nat
  column : Nat
  charLength : Nat
deriving DecidableEq, Repr

/-- `token.rs` `Separator::get_symbol`. -/
def Separator.getSymbol : Separator → Char
  | .Semicolon => ';'
  | .Comma => ','
  | .Period => '.'
  | .OpenParenthesis => '('
  | .CloseParenthesis => ')'
  | .OpenSquareParenthesis => '['
  | .CloseSquareParenthesis => ']'
  | .OpenCurlyParenthesis => '\x7b'
  | .CloseCurlyParenthesis => '\x7d'

/-- `main_data.char_to_separator_mapping` lookup, built (per
`Separator::get_symbols_map`) from every separator's symbol. -/
def charToSeparator (c : Char) : Option Separator :=
  [Separator.Semicolon, .Comma, .Period, .OpenParenthesis, .CloseParenthesis,
   .OpenSquareParenthesis, .CloseSquareParenthesis, .OpenCurlyParenthesis,
   .CloseCurlyParenthesis].find? (fun s => s.getSymbol = c)

/-- `token.rs` `Operator::get_character_set`, the characters of
`"+-*/%=!<>&|~^?#$:"`. -/
def operatorCharacterSet : List Char :=
  ['+', '-', '*', '/', '%', '=', '!', '<', '>', '&', '|', '~', '^', '?', '#', '$', ':']

/-- `char::is_ascii_digit`. -/
def isAsciiDigit (c : Char) : Bool := 48 ≤ c.toNat && c.toNat ≤ 57

/-- `char::is_ascii_alphabetic`. -/
def isAsciiAlphabetic (c : Char) : Bool :=
  (65 ≤ c.toNat && c.toNat ≤ 90) || (97 ≤ c.toNat && c.toNat ≤ 122)

/-- `char::is_ascii_alphanumeric`. -/
def isAsciiAlphanumeric (c : Char) : Bool := isAsciiDigit c || isAsciiAlphabetic c

/-- The character class of an identifier body: alphanumeric or underscore. -/
def isIdentifierChar (c : Char) : Bool := isAsciiAlphanumeric c || c = '_'

/-- The character class scanned for a numerical literal: alphanumeric,
underscore or dot. -/
def isNumericalLiteralChar (c : Char) : Bool :=
  isAsciiAlphanumeric c || c = '_' || c = '.'

/-- The length of the maximal prefix of `cs` whose characters satisfy `p`;
this is `cs.find(|chr| !p(chr)).unwrap_or(cs.len())` from the source. -/
def spanLength (p : Char → Bool) : List Char → Nat
  | [] => 0
  | c :: rest => if p c then spanLength p rest + 1 else 0

/-- `char::to_digit(base)`. -/
def charToDigit (c : Char) (base : Nat) : Option Nat :=
  let raw : Option Nat :=
    if 48 ≤ c.toNat ∧ c.toNat ≤ 57 then some (c.toNat - 48)
    else if 97 ≤ c.toNat ∧ c.toNat ≤ 122 then some (c.toNat - 97 + 10)
    else if 65 ≤ c.toNat ∧ c.toNat ≤ 90 then some (c.toNat - 65 + 10)
    else none
  match raw with
  | some v => if v < base then some v else none
  | none => none

/-- The digit-accumulation loop of `tokenize_from_line` (token.rs lines
196-214): underscores are skipped, every step is `checked_mul`/`checked_add`
on a `u64` accumulator, and any value above `main_data.int_max_value` (or any
`u64` overflow) is `NumericalLiteralTooLarge`. -/
def parseDigitRun (maxVal base : Nat) : List Char → Nat → Except Error Nat
  | [], out => .ok out
  | c :: rest, out =>
    if c = '_' then parseDigitRun maxVal base rest out
    else
      match charToDigit c base with
      | some digit =>
        if out * base ≥ 2 ^ 64 then .error .NumericalLiteralTooLarge
        else if out * base + digit ≥ 2 ^ 64 then .error .NumericalLiteralTooLarge
        else if out * base + digit > maxVal then .error .NumericalLiteralTooLarge
        else parseDigitRun maxVal base rest (out * base + digit)
      | none => .error (.InvalidDigitForBase c base)

/-- The result of `tokenize_from_line`: a token with the unconsumed remainder,
an `Error`, or a panic (`todo!`, `expect`, out-of-range `split_at`). -/
inductive TokenizeResult where
  | ok (token : Token) (rest : List Char)
  | err (e : Error)
  | panic
deriving DecidableEq, Repr

/-- The first match of `tokenize_from_line` (token.rs lines 139-162): the
token-variant discriminant and the length in chars of the token, decided by
the first character.  The source at this revision constructs
`Error::FeatureNotYetImplemented` without a payload; the embedding supplies
the empty string. -/
def tokenVariantDiscriminantAndLength (lineContent : List Char) :
    Except Error (TokenVariantDiscriminants × Nat) :=
  match lineContent with
  | [] => .error (.FeatureNotYetImplemented "")
  | firstChar :: rest =>
    if lineContent.take 2 = ['/', '/'] then .error (.FeatureNotYetImplemented "")
    else if lineContent.take 2 = ['/', '*'] then .error (.FeatureNotYetImplemented "")
    else if isAsciiAlphabetic firstChar || firstChar = '_' then
      .ok (.Identifier, spanLength isIdentifierChar lineContent)
    else if isAsciiDigit firstChar then
      .ok (.NumericalLiteral, spanLength isNumericalLiteralChar lineContent)
    else if (charToSeparator firstChar).isSome then .ok (.Separator, 1)
    else if operatorCharacterSet.contains firstChar then
      .ok (.Operator, spanLength (fun c => operatorCharacterSet.contains c) lineContent)
    else if firstChar = '@' then
      .ok (.Keyword,
        (match spanLength isIdentifierChar rest == rest.length with
         | true => lineContent.length
         | false => spanLength isIdentifierChar rest) + 1)
    else if firstChar = '\'' then .error (.FeatureNotYetImplemented "")
    else if firstChar = '"' then .error (.FeatureNotYetImplemented "")
    else .error (.InvalidTokenStartChar firstChar)

/-- `token.rs` `Token::tokenize_from_line`, on one line of source held as a
char list; `maxVal` is `main_data.int_max_value`.  The `Operator` and
`Keyword` discriminants fall into the `_ => todo!()` arm of the source's
variant-construction match, which panics. -/
def tokenizeFromLine (maxVal : Nat) (lineContent : List Char)
    (lineNumber columnNumber : Nat) : TokenizeResult :=
  match lineContent with
  | [] => .panic
  | _ :: _ =>
    match tokenVariantDiscriminantAndLength lineContent with
    | .error e => .err e
    | .ok (discriminant, lengthInChars) =>
      if lengthInChars > lineContent.length then .panic
      else
        let tokenString := lineContent.take lengthInChars
        let stringWithoutToken := lineContent.drop lengthInChars
        match tokenString with
        | [] => .panic
        | firstChar :: tokenRest =>
          let variant : Except Error (Option TokenVariant) :=
            match discriminant with
            | .Identifier => .ok (some (.Identifier (String.mk tokenString)))
            | .Separator =>
              match charToSeparator firstChar with
              | some s => .ok (some (.Separator s))
              | none => .ok none
            | .NumericalLiteral =>
              match
                (if firstChar = '0' then
                  match tokenRest.head? with
                  | none => .ok (false, 10, false)
                  | some secondChar =>
                    if isAsciiDigit secondChar then .ok (false, 10, false)
                    else if secondChar = 'x' then .ok (true, 16, false)
                    else if secondChar = 'o' then .ok (true, 8, false)
                    else if secondChar = 'b' then .ok (true, 2, false)
                    else if secondChar = 'f' then .ok (true, 10, true)
                    else .error (.InvalidNumericalLiteralBase secondChar)
                else (.ok (false, 10, false) : Except Error (Bool × Nat × Bool))) with
              | .error e => .error e
              | .ok (hasPrefix, base, isFloat) =>
                let stringWithoutPrefix :=
                  if hasPrefix then tokenString.drop 2 else tokenString
                if isFloat then .error (.FeatureNotYetImplemented "")
                else
                  match parseDigitRun maxVal base stringWithoutPrefix 0 with
                  | .error e => .error e
                  | .ok value => .ok (some (.NumericalLiteral value))
            | .StringLiteral => .ok none
            | .Keyword => .ok none
            | .Operator => .ok none
          match variant with
          | .error e => .err e
          | .ok none => .panic
          | .ok (some v) =>
            .ok ⟨v, lineNumber, columnNumber, tokenString.length⟩ stringWithoutToken

/-- The pure base-`base` value of a digit run (underscores transparent): the
number the claim's "accumulated value under the declared base" denotes. -/
def digitRunValue (base : Nat) : List Char → Nat → Nat
  | [], acc => acc
  | c :: rest, acc =>
    if c = '_' then digitRunValue base rest acc
    else digitRunValue base rest (acc * base + (charToDigit c base).getD 0)

/-- A value manipulated by the code-generation engine: an integer constant
(`const_int`, no instruction emitted), the undefined marker, a function
parameter, the result of the instruction at a given index of the current
function's instruction sequence, an LLVM function, or the constant-folded
`ptr_to_int` of a function. -/
inductive Val where
  | constInt (value : Nat)
  | undef
  | param (index : Nat)
  | instr (index : Nat)
  | function (name : String)
  | funcPtrToInt (name : String)
deriving DecidableEq, Repr

/-- An IR instruction as requested from the backend by the engine; integer
conversions carry their destination bit width. -/
inductive Instr where
  | add (l r : Val) | sub (l r : Val) | mult (l r : Val)
  | udiv (l r : Val) | umod (l r : Val) | sdiv (l r : Val) | smod (l r : Val)
  | band (l r : Val) | bor (l r : Val) | bxor (l r : Val)
  | neg (v : Val)
  | intToPtr (v : Val)
  | load (ptr : Val)
  | ptrToInt (v : Val)
  | alloca (name : String)
  | store (ptr value : Val)
  | zext (v : Val) (toBits : Nat)
  | sext (v : Val) (toBits : Nat)
  | trunc (v : Val) (toBits : Nat)
  | call (callee : Val) (args : List Val)
  | ret (v : Val)
deriving DecidableEq, Repr

/-- The builder's mutable state for the function currently being built: the
instruction sequence of its entry block, in emission order.  Each function's
instructions form their own sequence, so the source's re-anchoring of the
insertion point after building a nested function has no observable
counterpart here. -/
structure Builder where
  instrs : List Instr
deriving DecidableEq, Repr

/-- Emit one instruction and return the value holding its result. -/
def Builder.emit (b : Builder) (i : Instr) : Val × Builder :=
  (.instr b.instrs.length, ⟨b.instrs ++ [i]⟩)

/-- Modelled from the spec: `BuiltLValue` of `built_value.rs`, which is not
under `src/` — an abstraction over a storage location supporting `get_value`
(load), `set_value` (store) and `get_pointer` (address-of), with the stack
slot as its only concrete form. -/
inductive BuiltLValue where
  | AllocaVariable (ptr : Val)
deriving DecidableEq, Repr

/-- Modelled from the spec: `BuiltLValue::get_value`, a load from the slot. -/
def BuiltLValue.getValue : BuiltLValue → Builder → Val × Builder
  | .AllocaVariable ptr, b => b.emit (.load ptr)

/-- Modelled from the spec: `BuiltLValue::set_value`, a store to the slot. -/
def BuiltLValue.setValue : BuiltLValue → Val → Builder → Builder
  | .AllocaVariable ptr, v, b => (b.emit (.store ptr v)).2

/-- Modelled from the spec: `BuiltLValue::get_pointer`, the slot's address
(no instruction). -/
def BuiltLValue.getPointer : BuiltLValue → Val
  | .AllocaVariable ptr => ptr

/-- One level of the scope stack: a `HashMap` from names to built l-values,
modelled as an association list where a prepended entry shadows. -/
abbrev Scope := List (String × BuiltLValue)

/-- `file_build_data`: the already-built globals of the unit and the recorded
entry point. -/
structure FileBuildData where
  builtGlobals : List (String × Val)
  entrypoint : Option Val
deriving DecidableEq, Repr

/-- The scope walk shared by `get_variable_by_name` and `build_l_value`:
`for scope_level in local_variables.iter().rev()` — the scope stack holds the
innermost scope last, so the reversed walk sees it first and the first
binding found wins. -/
def lookupScopes (localVariables : List Scope) (name : String) : Option BuiltLValue :=
  localVariables.reverse.findSome? (fun scope => scope.lookup name)

/-- `ast_node.rs` `get_variable_by_name`: a local's value is loaded from its
slot; on a total miss the value comes from `built_globals[name]`, whose
indexing panics when the name is absent.  No binding is created. -/
def getVariableByName (fileBuildData : FileBuildData) (builder : Builder)
    (localVariables : List Scope) (name : String) : Except Issue (Val × Builder) :=
  match lookupScopes localVariables name with
  | some var => .ok (var.getValue builder)
  | none =>
    match fileBuildData.builtGlobals.lookup name with
    | some v => .ok (v, builder)
    | none => .error .panic

/-- The argument conversion of the link-function thunk (`ast_node.rs` lines
421-429): a three-way compare of the uniform width against the external
parameter width — zero- or sign-extend when the uniform width is narrower, pass
through when equal, truncate when wider. -/
def convertArgument (md : MainData) (argument : Val) (parameterType : LlvmType)
    (isSigned : Bool) (builder : Builder) : Val × Builder :=
  match compare md.intBitWidth parameterType.sizeInBits with
  | .lt =>
    match isSigned with
    | false => builder.emit (.zext argument parameterType.sizeInBits)
    | true => builder.emit (.sext argument parameterType.sizeInBits)
  | .eq => (argument, builder)
  | .gt => builder.emit (.trunc argument parameterType.sizeInBits)

/-- The return conversion of the link-function thunk (`ast_node.rs` lines
435-443): the mirror-image three-way compare — truncate when the uniform
width is narrower than the external return width, pass through when equal,
zero- or sign-extend when wider. -/
def convertReturn (md : MainData) (callResult : Val) (returnType : LlvmType)
    (isSigned : Bool) (builder : Builder) : Val × Builder :=
  match compare md.intBitWidth returnType.sizeInBits with
  | .lt => builder.emit (.trunc callResult md.intBitWidth)
  | .eq => (callResult, builder)
  | .gt =>
    match isSigned with
    | false => builder.emit (.zext callResult md.intBitWidth)
    | true => builder.emit (.sext callResult md.intBitWidth)

/-- The instruction selected for a binary integer/bitwise operation in
`build_r_value`'s `Operator::Normal` arm. -/
def binaryInstr (operation : Operation) (leftValue rightValue : Val) : Instr :=
  match operation with
  | .IntegerAdd => .add leftValue rightValue
  | .IntegerSubtract => .sub leftValue rightValue
  | .IntegerMultiply => .mult leftValue rightValue
  | .UnsignedDivide => .udiv leftValue rightValue
  | .UnsignedModulo => .umod leftValue rightValue
  | .SignedDivide => .sdiv leftValue rightValue
  | .SignedTruncatedModulo => .smod leftValue rightValue
  | .BitwiseAnd => .band leftValue rightValue
  | .BitwiseOr => .bor leftValue rightValue
  | _ => .bxor leftValue rightValue

/-- The binary integer/bitwise operations lowered by `build_r_value`. -/
def isBinaryIntegerOperation : Operation → Bool
  | .IntegerAdd | .IntegerSubtract | .IntegerMultiply
  | .UnsignedDivide | .UnsignedModulo | .SignedDivide | .SignedTruncatedModulo
  | .BitwiseAnd | .BitwiseOr | .BitwiseXor => true
  | _ => false

/-- The first loop of the link branch: `type_from_width` over the parameter
nodes, collecting the external parameter types and signedness flags. -/
def typeFromWidthList (nodes : List AstNode) (md : MainData) :
    Except (Error × Pos) (List (LlvmType × Bool)) :=
  match nodes with
  | [] => .ok []
  | n :: rest =>
    match n.typeFromWidth md with
    | .error e => .error e
    | .ok t =>
      match typeFromWidthList rest md with
      | .error e => .error e
      | .ok ts => .ok (t :: ts)

/-- The wrapper-body loop of the link branch: convert each incoming uniform
argument to its external parameter type. -/
def convertArguments (md : MainData) (types : List (LlvmType × Bool))
    (parameterIndex : Nat) (builder : Builder) : List Val × Builder :=
  match types with
  | [] => ([], builder)
  | (t, isSigned) :: rest =>
    let (converted, builder') := convertArgument md (.param parameterIndex) t isSigned builder
    let (restConverted, builder'') := convertArguments md rest (parameterIndex + 1) builder'
    (converted :: restConverted, builder'')

/-- The parameter loop of the ordinary branch: each parameter must be an
identifier; a stack slot is allocated, the incoming argument stored into it,
and the name bound to the slot. -/
def buildParameterSlots (parameters : List AstNode) (parameterIndex : Nat)
    (builder : Builder) (acc : Scope) : Except Issue (Scope × Builder) :=
  match parameters with
  | [] => .ok (acc, builder)
  | p :: rest =>
    match p with
    | .mk (.Identifier parameterName) _ _ =>
      let (slot, builder') := builder.emit (.alloca parameterName)
      let builder'' := (builder'.emit (.store slot (.param parameterIndex))).2
      buildParameterSlots rest (parameterIndex + 1) builder''
        ((parameterName, BuiltLValue.AllocaVariable slot) :: acc)
    | .mk _ pstart _ => .error (.error .ExpectedIdentifier pstart)

/-- `ast_node.rs` `build_l_value`.  The `file_build_data`, `llvm_module` and
`basic_block` parameters are unused in the source (underscore-prefixed) and
omitted here. -/
def buildLValue (_md : MainData) (node : AstNode) (builder : Builder)
    (localVariables : List Scope) :
    Except Issue (BuiltLValue × Builder × List Scope) :=
  match node with
  | .mk variant start _ =>
    match variant with
    | .Identifier name =>
      match lookupScopes localVariables name with
      | some var => .ok (var, builder, localVariables)
      | none =>
        let (slot, builder') := builder.emit (.alloca name)
        match localVariables.getLast? with
        | none => .error .panic
        | some innermost =>
          .ok (BuiltLValue.AllocaVariable slot, builder',
            localVariables.dropLast ++ [(name, BuiltLValue.AllocaVariable slot) :: innermost])
    | .Constant _ => .error (.error .InvalidLValue start)
    | .Str _ => .error (.error .InvalidLValue start)
    | .FunctionCall _ _ => .error (.error .InvalidLValue start)
    | .FunctionDefinition _ _ => .error (.error .InvalidLValue start)
    | .Metadata _ _ => .error (.error .InvalidLValue start)
    | .Block _ _ => .error (.error (.FeatureNotYetImplemented "L-value blocks") start)
    | .Operator _ _ => .error (.error (.FeatureNotYetImplemented "L-value operators") start)

mutual

/-- `ast_node.rs` `build_function_definition`, taken here over the node's
variant and start position so that the whole engine is structurally
recursive.  Module-level effects (`add_function`, linkage, calling
convention, the entry block) have no observable counterpart in the trace
model; the built function's instructions are returned as its own sequence. -/
def buildFunctionDefinition (md : MainData) (variant : AstNodeVariant) (start : Pos)
    (fileBuildData : FileBuildData) (name : String) (isLinkFunction isEntryPoint : Bool) :
    Except Issue (Val × FileBuildData × List Instr) :=
  match variant with
    | .Metadata m child =>
      match m, child with
      | .EntryPoint, .mk childVariant childStart _ =>
        buildFunctionDefinition md childVariant childStart fileBuildData name
          isLinkFunction true
      | .Link, .mk childVariant childStart _ =>
        buildFunctionDefinition md childVariant childStart fileBuildData name
          true isEntryPoint
    | .FunctionDefinition parameters functionBody =>
      if parameters.length > 65535 then .error (.error .TooManyFunctionParameters start)
      else
        let mangledName := match isLinkFunction with
          | false => name
          | true => "__bcz__link__" ++ name
        let bodyResult : Except Issue (List Instr) :=
          match isLinkFunction with
          | false =>
            match buildParameterSlots parameters 0 ⟨[]⟩ [] with
            | .error e => .error e
            | .ok (functionParameterVariables, builder) =>
              match buildRValue md functionBody fileBuildData builder
                  [functionParameterVariables] with
              | .error e => .error e
              | .ok (bodyBuilt, _, builder', _) => .ok (builder'.emit (.ret bodyBuilt)).2.instrs
          | true =>
            match typeFromWidthList parameters md with
            | .error (e, p) => .error (.error e p)
            | .ok wrappedParameterTypes =>
              match functionBody.typeFromWidth md with
              | .error (e, p) => .error (.error e p)
              | .ok (wrappedReturnType, wrappedReturnTypeIsSigned) =>
                let (arguments, builder) :=
                  convertArguments md wrappedParameterTypes 0 ⟨[]⟩
                let (callResult, builder') := builder.emit (.call (.function name) arguments)
                let (callResultConverted, builder'') :=
                  convertReturn md callResult wrappedReturnType wrappedReturnTypeIsSigned
                    builder'
                .ok (builder''.emit (.ret callResultConverted)).2.instrs
        match bodyResult with
        | .error e => .error e
        | .ok functionInstrs =>
          let result : Val := .funcPtrToInt mangledName
          match isEntryPoint with
          | true =>
            match fileBuildData.entrypoint with
            | some _ => .error (.error .MultipleEntryPoints start)
            | none =>
              .ok (result, { fileBuildData with entrypoint := some result }, functionInstrs)
          | false => .ok (result, fileBuildData, functionInstrs)
    | _ => .error .panic

/-- `ast_node.rs` `build_r_value`. -/
def buildRValue (md : MainData) (node : AstNode) (fileBuildData : FileBuildData)
    (builder : Builder) (localVariables : List Scope) :
    Except Issue (Val × FileBuildData × Builder × List Scope) :=
  match node with
  | .mk variant start _ =>
    if node.isFunction then
      match buildFunctionDefinition md variant start fileBuildData "__bcz__unnamedFunction"
          false false with
      | .error e => .error e
      | .ok (out, fileBuildData', _) => .ok (out, fileBuildData', builder, localVariables)
    else
      match variant with
      | .Constant value => .ok (.constInt value, fileBuildData, builder, localVariables)
      | .Identifier name =>
        match getVariableByName fileBuildData builder localVariables name with
        | .error e => .error e
        | .ok (v, builder') => .ok (v, fileBuildData, builder', localVariables)
      | .Operator op operands =>
        match op with
        | .Assignment =>
          match operands with
          | lhs :: rhs :: _ =>
            match buildRValue md rhs fileBuildData builder localVariables with
            | .error e => .error e
            | .ok (rValue, fileBuildData', builder', localVariables') =>
              match buildLValue md lhs builder' localVariables' with
              | .error e => .error e
              | .ok (lValue, builder'', localVariables'') =>
                .ok (rValue, fileBuildData', lValue.setValue rValue builder'',
                  localVariables'')
          | _ => .error .panic
        | .Normal operation =>
          match operation with
          | .IntegerAdd | .IntegerSubtract | .IntegerMultiply
          | .UnsignedDivide | .UnsignedModulo | .SignedDivide | .SignedTruncatedModulo
          | .BitwiseAnd | .BitwiseOr | .BitwiseXor =>
            match operands with
            | lhs :: rhs :: _ =>
              match buildRValue md lhs fileBuildData builder localVariables with
              | .error e => .error e
              | .ok (leftValue, fbd₁, builder₁, locals₁) =>
                match buildRValue md rhs fbd₁ builder₁ locals₁ with
                | .error e => .error e
                | .ok (rightValue, fbd₂, builder₂, locals₂) =>
                  let (result, builder₃) :=
                    builder₂.emit (binaryInstr operation leftValue rightValue)
                  .ok (result, fbd₂, builder₃, locals₂)
            | _ => .error .panic
          | .IntegerNegate | .Dereference =>
            match operands with
            | operand :: _ =>
              match buildRValue md operand fileBuildData builder localVariables with
              | .error e => .error e
              | .ok (operandValue, fbd₁, builder₁, locals₁) =>
                match operation with
                | .IntegerNegate =>
                  let (result, builder₂) := builder₁.emit (.neg operandValue)
                  .ok (result, fbd₁, builder₂, locals₁)
                | _ =>
                  let (asPtr, builder₂) := builder₁.emit (.intToPtr operandValue)
                  let (result, builder₃) := builder₂.emit (.load asPtr)
                  .ok (result, fbd₁, builder₃, locals₁)
            | _ => .error .panic
          | .TakeReference | .Read =>
            match operands with
            | operand :: _ =>
              match buildLValue md operand builder localVariables with
              | .error e => .error e
              | .ok (value, builder₁, locals₁) =>
                match operation with
                | .TakeReference =>
                  let (result, builder₂) := builder₁.emit (.ptrToInt value.getPointer)
                  .ok (result, fileBuildData, builder₂, locals₁)
                | _ =>
                  let (result, builder₂) := value.getValue builder₁
                  .ok (result, fileBuildData, builder₂, locals₁)
            | _ => .error .panic
          | _ => .error (.error (.FeatureNotYetImplemented "This operator") start)
        | .Augmented _ =>
          .error (.error (.FeatureNotYetImplemented "Augmented assignments") start)
        | .LValueAssignment =>
          .error (.error (.FeatureNotYetImplemented "L-value assignments") start)
      | .FunctionDefinition _ _ => .error .panic
      | .Block blockExpressions isResultUndefined =>
        if isResultUndefined && blockExpressions.isEmpty then
          .ok (.undef, fileBuildData, builder, localVariables)
        else if localVariables.isEmpty then
          .error (.error (.FeatureNotYetImplemented "Blocks in global scope") start)
        else
          match buildBlockExpressions md blockExpressions fileBuildData builder
              (localVariables ++ [([] : Scope)]) none with
          | .error e => .error e
          | .ok (lastBuiltExpression, fileBuildData', builder', localVariables') =>
            let poppedLocals := localVariables'.dropLast
            match isResultUndefined, lastBuiltExpression with
            | true, _ => .ok (.undef, fileBuildData', builder', poppedLocals)
            | false, none => .ok (.undef, fileBuildData', builder', poppedLocals)
            | false, some v => .ok (v, fileBuildData', builder', poppedLocals)
      | .FunctionCall function arguments =>
        if localVariables.isEmpty then
          .error (.error (.FeatureNotYetImplemented "Global function calls") start)
        else if arguments.length > 65535 then
          .error (.error .TooManyFunctionArguments start)
        else
          match buildRValue md function fileBuildData builder localVariables with
          | .error e => .error e
          | .ok (functionPointerBuilt, fbd₁, builder₁, locals₁) =>
            match buildArguments md arguments fbd₁ builder₁ locals₁ with
            | .error e => .error e
            | .ok (argumentsBuilt, fbd₂, builder₂, locals₂) =>
              let (functionPointer, builder₃) :=
                builder₂.emit (.intToPtr functionPointerBuilt)
              let (builtFunctionCall, builder₄) :=
                builder₃.emit (.call functionPointer argumentsBuilt)
              .ok (builtFunctionCall, fbd₂, builder₄, locals₂)
      | .Str _ => .error (.error (.FeatureNotYetImplemented "String literals") start)
      | .Metadata _ _ => .error .panic

/-- The statement loop of the `Block` arm, tracking the last built value. -/
def buildBlockExpressions (md : MainData) (expressions : List AstNode)
    (fileBuildData : FileBuildData) (builder : Builder) (localVariables : List Scope)
    (lastBuilt : Option Val) :
    Except Issue (Option Val × FileBuildData × Builder × List Scope) :=
  match expressions with
  | [] => .ok (lastBuilt, fileBuildData, builder, localVariables)
  | e :: rest =>
    match buildRValue md e fileBuildData builder localVariables with
    | .error err => .error err
    | .ok (v, fileBuildData', builder', localVariables') =>
      buildBlockExpressions md rest fileBuildData' builder' localVariables' (some v)

/-- The argument loop of the `FunctionCall` arm. -/
def buildArguments (md : MainData) (arguments : List AstNode)
    (fileBuildData : FileBuildData) (builder : Builder) (localVariables : List Scope) :
    Except Issue (List Val × FileBuildData × Builder × List Scope) :=
  match arguments with
  | [] => .ok ([], fileBuildData, builder, localVariables)
  | a :: rest =>
    match buildRValue md a fileBuildData builder localVariables with
    | .error e => .error e
    | .ok (v, fileBuildData', builder', localVariables') =>
      match buildArguments md rest fileBuildData' builder' localVariables' with
      | .error e => .error e
      | .ok (vs, fileBuildData'', builder'', localVariables'') =>
        .ok (v :: vs, fileBuildData'', builder'', localVariables'')

end

/-- `x = (1 + 2)`: an assignment whose right operand emits an instruction and
whose left operand is a fresh identifier (so its l-value build emits an
alloca). -/
def assignTree : AstNode :=
  .mk (.Operator .Assignment
    [.mk (.Identifier "x") ⟨1, 1⟩ ⟨1, 2⟩,
     .mk (.Operator (.Normal .IntegerAdd)
       [.mk (.Constant 1) ⟨1, 5⟩ ⟨1, 6⟩, .mk (.Constant 2) ⟨1, 9⟩ ⟨1, 10⟩]) ⟨1, 5⟩ ⟨1, 10⟩])
    ⟨1, 1⟩ ⟨1, 10⟩

/-- A `Link`-wrapped function declared with an 8-bit unsigned parameter
(`Constant 1`) and a `w`-bit-encoded 32-bit signed return (`Constant
(2^w − 4)`, i.e. −4 at the active width). -/
def linkFnNode (w : Nat) : AstNode :=
  .mk (.Metadata .Link
    (.mk (.FunctionDefinition [.mk (.Constant 1) ⟨1, 10⟩ ⟨1, 11⟩]
       (.mk (.Constant (2 ^ w - 4)) ⟨1, 14⟩ ⟨1, 16⟩)) ⟨1, 5⟩ ⟨1, 17⟩))
    ⟨1, 1⟩ ⟨1, 17⟩

/-! ## Theorems -/

/-- Nat-level helper: `bit`-decomposition of xor. -/
theorem two_mul_add_xor (a b : Nat) (x y : Bool) :
    (2 * a + x.toNat) ^^^ (2 * b + y.toNat) = 2 * (a ^^^ b) + (bne x y).toNat := by
  have h1 : 2 * a + x.toNat = Nat.bit x a := by cases x <;> simp [Nat.bit]
  have h2 : 2 * b + y.toNat = Nat.bit y b := by cases y <;> simp [Nat.bit]
  have h3 : 2 * (a ^^^ b) + (bne x y).toNat = Nat.bit (bne x y) (a ^^^ b) := by
    cases x <;> cases y <;> simp [Nat.bit]
  rw [h1, h2, h3, Nat.xor_bit]

/-- Nat-level helper: xor with the all-ones mask of width `w` is complement. -/
theorem xor_two_pow_sub_one : ∀ (w v : Nat), v < 2 ^ w → v ^^^ (2 ^ w - 1) = 2 ^ w - 1 - v := by
  intro w
  induction w with
  | zero =>
    intro v hv
    have : v = 0 := by omega
    subst this; rfl
  | succ w ih =>
    intro v hv
    have hpow : 2 ^ (w + 1) = 2 * 2 ^ w := by rw [pow_succ]; ring
    have hone : 1 ≤ 2 ^ w := Nat.one_le_two_pow
    have hv2 : v / 2 < 2 ^ w := by omega
    have hrec := ih (v / 2) hv2
    obtain hb | hb := Nat.mod_two_eq_zero_or_one v
    · have e1 : v = 2 * (v / 2) + (false : Bool).toNat := by simp; omega
      have e2 : 2 ^ (w + 1) - 1 = 2 * (2 ^ w - 1) + (true : Bool).toNat := by simp; omega
      rw [e1, e2, two_mul_add_xor, hrec]
      simp
      omega
    · have e1 : v = 2 * (v / 2) + (true : Bool).toNat := by simp; omega
      have e2 : 2 ^ (w + 1) - 1 = 2 * (2 ^ w - 1) + (true : Bool).toNat := by simp; omega
      rw [e1, e2, two_mul_add_xor, hrec]
      simp
      omega

/-- Nat-level helper: the source's `(v ^ int_max_value).wrapping_add(1)`
followed by masking with `int_max_value` is two's-complement negation modulo
the active width. -/
theorem twos_complement_masked (w v : Nat) (hw : w ≤ 64) (hv : v < 2 ^ w) :
    (((v ^^^ (2 ^ w - 1)) + 1) % 2 ^ 64) &&& (2 ^ w - 1) = (2 ^ w - v) % 2 ^ w := by
  rw [xor_two_pow_sub_one w v hv, Nat.and_pow_two_sub_one_eq_mod,
      Nat.mod_mod_of_dvd _ (pow_dvd_pow 2 hw)]
  congr 1
  have : 1 ≤ 2 ^ w := Nat.one_le_two_pow
  omega

/-- Nat-level helper: testing against a single-bit mask is `testBit`. -/
theorem and_single_bit_mask (w v : Nat) : ((2 ^ w &&& v) != 0) = v.testBit w := by
  rw [Nat.two_pow_and]
  have hpos : 0 < 2 ^ w := Nat.pos_pow_of_pos w (by norm_num)
  cases h : v.testBit w <;> simp

theorem DepExtends.refl (st : DepState) : DepExtends st st :=
  ⟨fun _ h => h, fun _ h => .inl h⟩

theorem DepExtends.trans {st₁ st₂ st₃ : DepState} (h₁ : DepExtends st₁ st₂)
    (h₂ : DepExtends st₂ st₃) : DepExtends st₁ st₃ := by
  refine ⟨fun x hx => h₂.1 x (h₁.1 x hx), fun x hx => ?_⟩
  rcases h₂.2 x hx with h | h
  · exact h₁.2 x h
  · exact .inr (fun hc => h (h₁.1 x hc))

mutual

theorem gvd_invariant (node : AstNode) (st : DepState) (l lf : Bool) (st' : DepState)
    (hfree : node.functionDefinitionFree = true)
    (h : getVariableDependencies node st l lf = .ok st') : DepExtends st st' := by
  match node, hfree, h with
  | .mk (.Block subs b) s e, hfree, h =>
    have hf : functionDefinitionFreeList subs = true := hfree
    replace h : (if (lf && true) = true
        then (.error (.error .LinkNotUsedOnFunction s) : Except Issue DepState)
        else getVariableDependenciesBlock subs st l s) = .ok st' := h
    split at h
    · exact absurd h (by simp)
    · exact gvdBlock_invariant subs st l s st' hf h
  | .mk (.Constant v) s e, hfree, h =>
    replace h : (if (lf && true) = true
        then (.error (.error .LinkNotUsedOnFunction s) : Except Issue DepState)
        else .ok st) = .ok st' := h
    split at h
    · exact absurd h (by simp)
    · simp only [Except.ok.injEq] at h
      subst h; exact DepExtends.refl st
  | .mk (.Str str) s e, hfree, h =>
    replace h : (if (lf && true) = true
        then (.error (.error .LinkNotUsedOnFunction s) : Except Issue DepState)
        else .ok st) = .ok st' := h
    split at h
    · exact absurd h (by simp)
    · simp only [Except.ok.injEq] at h
      subst h; exact DepExtends.refl st
  | .mk (.Identifier name) s e, hfree, h =>
    match l, h with
    | false, h =>
      replace h : (if (lf && true) = true
          then (.error (.error .LinkNotUsedOnFunction s) : Except Issue DepState)
          else if name ∈ st.localVariables then .ok st
          else .ok { st with variableDependencies := st.variableDependencies.insert name })
          = .ok st' := h
      split at h
      · exact absurd h (by simp)
      · split at h
        · simp only [Except.ok.injEq] at h
          subst h; exact DepExtends.refl st
        · next hnot =>
          simp only [Except.ok.injEq] at h
          subst h
          refine ⟨fun x hx => hx, fun x hx => ?_⟩
          simp only [List.mem_insert_iff] at hx
          rcases hx with rfl | hx
          · exact .inr hnot
          · exact .inl hx
    | true, h =>
      replace h : (if (lf && true) = true
          then (.error (.error .LinkNotUsedOnFunction s) : Except Issue DepState)
          else .ok { st with localVariables := st.localVariables.insert name }) = .ok st' := h
      split at h
      · exact absurd h (by simp)
      · simp only [Except.ok.injEq] at h
        subst h
        exact ⟨fun x hx => by simp only [List.mem_insert_iff]; exact .inr hx,
               fun x hx => .inl hx⟩
  | .mk (.FunctionCall f args) s e, hfree, h =>
    have hf : (f.functionDefinitionFree && functionDefinitionFreeList args) = true := hfree
    simp only [Bool.and_eq_true] at hf
    replace h : (if (lf && true) = true
        then (.error (.error .LinkNotUsedOnFunction s) : Except Issue DepState)
        else if l = true then .error (.error .LValueFunctionCall s)
        else match getVariableDependencies f
            { st with localVariables := st.localVariables } false false with
          | .error e => .error e
          | .ok st₁ =>
            getVariableDependenciesArgs args
              { st₁ with localVariables := st.localVariables } st.localVariables) = .ok st' := h
    split at h
    · exact absurd h (by simp)
    · split at h
      · exact absurd h (by simp)
      · split at h
        · exact absurd h (by simp)
        · next st₁ heq =>
          have h₁ := gvd_invariant f { st with localVariables := st.localVariables }
            false false st₁ hf.1 heq
          have h₂ := gvdArgs_invariant args { st₁ with localVariables := st.localVariables }
            st.localVariables st' rfl hf.2 h
          exact @DepExtends.trans _ { st₁ with localVariables := st.localVariables } _
            ⟨fun x hx => hx, fun x hx => h₁.2 x hx⟩ h₂
  | .mk (.FunctionDefinition ps bd) s e, hfree, h =>
    exact absurd (show False from by simpa using (show false = true from hfree)) id
  | .mk (.Metadata m child) s e, hfree, h =>
    have hf : child.functionDefinitionFree = true := hfree
    match m, h with
    | .EntryPoint, h =>
      replace h : (if (lf && !child.isFunction) = true
          then (.error (.error .LinkNotUsedOnFunction s) : Except Issue DepState)
          else getVariableDependencies child st l lf) = .ok st' := h
      split at h
      · exact absurd h (by simp)
      · exact gvd_invariant child st l lf st' hf h
    | .Link, h =>
      replace h : (if (lf && !child.isFunction) = true
          then (.error (.error .LinkNotUsedOnFunction s) : Except Issue DepState)
          else getVariableDependencies child st l true) = .ok st' := h
      split at h
      · exact absurd h (by simp)
      · exact gvd_invariant child st l true st' hf h
  | .mk (.Operator op operands) s e, hfree, h =>
    have hfl : functionDefinitionFreeList operands = true := hfree
    match op, h with
    | .Assignment, h =>
      match operands, hfl, h with
      | [], _, h =>
        replace h : (if (lf && true) = true
            then (.error (.error .LinkNotUsedOnFunction s) : Except Issue DepState)
            else .error .panic) = .ok st' := h
        split at h <;> exact absurd h (by simp)
      | [x], _, h =>
        replace h : (if (lf && true) = true
            then (.error (.error .LinkNotUsedOnFunction s) : Except Issue DepState)
            else .error .panic) = .ok st' := h
        split at h <;> exact absurd h (by simp)
      | lhs :: rhs :: tail, hfl, h =>
        have hf : (lhs.functionDefinitionFree
            && (rhs.functionDefinitionFree && functionDefinitionFreeList tail)) = true := hfl
        simp only [Bool.and_eq_true] at hf
        replace h : (if (lf && true) = true
            then (.error (.error .LinkNotUsedOnFunction s) : Except Issue DepState)
            else match getVariableDependencies lhs st true false with
              | .error e => .error e
              | .ok st₁ => getVariableDependencies rhs st₁ false false) = .ok st' := h
        split at h
        · exact absurd h (by simp)
        · split at h
          · exact absurd h (by simp)
          · next st₁ heq =>
            exact (gvd_invariant lhs st true false st₁ hf.1 heq).trans
              (gvd_invariant rhs st₁ false false st' hf.2.1 h)
    | .Augmented operation, h =>
      match operation, h with
      | .Dereference, h | .IntegerNegate, h | .FloatNegate, h | .Read, h | .TakeReference, h =>
        replace h : (if (lf && true) = true
            then (.error (.error .LinkNotUsedOnFunction s) : Except Issue DepState)
            else .error (.error (.FeatureNotYetImplemented "Augmented unary operators") s))
            = .ok st' := h
        split at h <;> exact absurd h (by simp)
      | .IntegerAdd, h | .FloatAdd, h | .IntegerSubtract, h | .FloatSubtract, h
      | .IntegerMultiply, h | .FloatMultiply, h | .SignedDivide, h | .UnsignedDivide, h
      | .FloatDivide, h | .SignedTruncatedModulo, h | .UnsignedModulo, h
      | .FloatTruncatedModulo, h | .BitwiseAnd, h | .BitwiseOr, h | .BitwiseXor, h
      | .LogicalNotShortCircuitAnd, h | .LogicalNotShortCircuitOr, h
      | .LogicalNotShortCircuitXor, h | .LogicalShortCircuitAnd, h
      | .LogicalShortCircuitOr, h | .LogicalShortCircuitXor, h =>
        match operands, hfl, h with
        | [], _, h =>
          replace h : (if (lf && true) = true
              then (.error (.error .LinkNotUsedOnFunction s) : Except Issue DepState)
              else .error .panic) = .ok st' := h
          split at h <;> exact absurd h (by simp)
        | [x], _, h =>
          replace h : (if (lf && true) = true
              then (.error (.error .LinkNotUsedOnFunction s) : Except Issue DepState)
              else .error .panic) = .ok st' := h
          split at h <;> exact absurd h (by simp)
        | lhs :: rhs :: tail, hfl, h =>
          have hf : (lhs.functionDefinitionFree
              && (rhs.functionDefinitionFree && functionDefinitionFreeList tail)) = true := hfl
          simp only [Bool.and_eq_true] at hf
          replace h : (if (lf && true) = true
              then (.error (.error .LinkNotUsedOnFunction s) : Except Issue DepState)
              else match getVariableDependencies lhs st true false with
                | .error e => .error e
                | .ok st₁ => getVariableDependencies rhs st₁ false false) = .ok st' := h
          split at h
          · exact absurd h (by simp)
          · split at h
            · exact absurd h (by simp)
            · next st₁ heq =>
              exact (gvd_invariant lhs st true false st₁ hf.1 heq).trans
                (gvd_invariant rhs st₁ false false st' hf.2.1 h)
    | .Normal operation, h =>
      match operation, h with
      | .Read, h =>
        replace h : (if (lf && true) = true
            then (.error (.error .LinkNotUsedOnFunction s) : Except Issue DepState)
            else getVariableDependenciesList operands st true) = .ok st' := h
        split at h
        · exact absurd h (by simp)
        · exact gvdList_invariant operands st true st' hfl h
      | .IntegerAdd, h | .FloatAdd, h | .IntegerSubtract, h | .FloatSubtract, h
      | .IntegerMultiply, h | .FloatMultiply, h | .SignedDivide, h | .UnsignedDivide, h
      | .FloatDivide, h | .SignedTruncatedModulo, h | .UnsignedModulo, h
      | .FloatTruncatedModulo, h | .IntegerNegate, h | .FloatNegate, h
      | .Dereference, h | .TakeReference, h | .BitwiseAnd, h | .BitwiseOr, h | .BitwiseXor, h
      | .LogicalNotShortCircuitAnd, h | .LogicalNotShortCircuitOr, h
      | .LogicalNotShortCircuitXor, h | .LogicalShortCircuitAnd, h
      | .LogicalShortCircuitOr, h | .LogicalShortCircuitXor, h =>
        replace h : (if (lf && true) = true
            then (.error (.error .LinkNotUsedOnFunction s) : Except Issue DepState)
            else getVariableDependenciesList operands st false) = .ok st' := h
        split at h
        · exact absurd h (by simp)
        · exact gvdList_invariant operands st false st' hfl h
    | .LValueAssignment, h =>
      replace h : (if (lf && true) = true
          then (.error (.error .LinkNotUsedOnFunction s) : Except Issue DepState)
          else getVariableDependenciesList operands st true) = .ok st' := h
      split at h
      · exact absurd h (by simp)
      · exact gvdList_invariant operands st true st' hfl h

theorem gvdBlock_invariant (nodes : List AstNode) (st : DepState) (l : Bool) (start : Pos)
    (st' : DepState) (hfree : functionDefinitionFreeList nodes = true)
    (h : getVariableDependenciesBlock nodes st l start = .ok st') : DepExtends st st' := by
  match nodes, hfree, h with
  | [], _, h =>
    replace h : (.ok st : Except Issue DepState) = .ok st' := h
    simp only [Except.ok.injEq] at h
    subst h; exact DepExtends.refl st
  | n :: rest, hfree, h =>
    have hf : (n.functionDefinitionFree && functionDefinitionFreeList rest) = true := hfree
    simp only [Bool.and_eq_true] at hf
    match l, h with
    | true, h =>
      replace h : (.error (.error (.FeatureNotYetImplemented "L-value blocks") start)
          : Except Issue DepState) = .ok st' := h
      exact absurd h (by simp)
    | false, h =>
      replace h : (match getVariableDependencies n st false false with
        | .error e => (.error e : Except Issue DepState)
        | .ok st₁ => getVariableDependenciesBlock rest st₁ false start) = .ok st' := h
      split at h
      · exact absurd h (by simp)
      · next st₁ heq =>
        exact (gvd_invariant n st false false st₁ hf.1 heq).trans
          (gvdBlock_invariant rest st₁ false start st' hf.2 h)

theorem gvdArgs_invariant (nodes : List AstNode) (st : DepState) (outerLocals : List String)
    (st' : DepState) (hloc : st.localVariables = outerLocals)
    (hfree : functionDefinitionFreeList nodes = true)
    (h : getVariableDependenciesArgs nodes st outerLocals = .ok st') : DepExtends st st' := by
  match nodes, hfree, h with
  | [], _, h =>
    replace h : (.ok st : Except Issue DepState) = .ok st' := h
    simp only [Except.ok.injEq] at h
    subst h; exact DepExtends.refl st
  | n :: rest, hfree, h =>
    have hf : (n.functionDefinitionFree && functionDefinitionFreeList rest) = true := hfree
    simp only [Bool.and_eq_true] at hf
    replace h : (match getVariableDependencies n { st with localVariables := outerLocals }
        false false with
      | .error e => (.error e : Except Issue DepState)
      | .ok st₁ =>
        getVariableDependenciesArgs rest { st₁ with localVariables := st.localVariables }
          outerLocals) = .ok st' := h
    split at h
    · exact absurd h (by simp)
    · next st₁ heq =>
      have h₁ := gvd_invariant n { st with localVariables := outerLocals } false false st₁
        hf.1 heq
      have h₂ := gvdArgs_invariant rest { st₁ with localVariables := st.localVariables }
        outerLocals st' (by simpa using hloc) hf.2 h
      refine @DepExtends.trans _ { st₁ with localVariables := st.localVariables } _ ?_ h₂
      constructor
      · intro x hx; exact hx
      · intro x hx
        rcases h₁.2 x hx with hd | hd
        · exact .inl hd
        · rw [hloc]; exact .inr hd

theorem gvdList_invariant (nodes : List AstNode) (st : DepState) (l : Bool) (st' : DepState)
    (hfree : functionDefinitionFreeList nodes = true)
    (h : getVariableDependenciesList nodes st l = .ok st') : DepExtends st st' := by
  match nodes, hfree, h with
  | [], _, h =>
    replace h : (.ok st : Except Issue DepState) = .ok st' := h
    simp only [Except.ok.injEq] at h
    subst h; exact DepExtends.refl st
  | n :: rest, hfree, h =>
    have hf : (n.functionDefinitionFree && functionDefinitionFreeList rest) = true := hfree
    simp only [Bool.and_eq_true] at hf
    replace h : (match getVariableDependencies n st l false with
      | .error e => (.error e : Except Issue DepState)
      | .ok st₁ => getVariableDependenciesList rest st₁ l) = .ok st' := h
    split at h
    · exact absurd h (by simp)
    · next st₁ heq =>
      exact (gvd_invariant n st l false st₁ hf.1 heq).trans
        (gvdList_invariant rest st₁ l st' hf.2 h)

end

/-- C4: `type_from_width` yields `InvalidType` for every non-`Constant` node
in type position; for a `Constant` the signedness is the sign bit under the
active sign-bit mask, the magnitude of a negative value is its two's-complement
negation `2^w - v`, and the magnitude must be exactly 1, 2, 4, 8 or 16, mapping
to the 8-, 16-, 32-, 64- or 128-bit integer type, anything else failing with
`InvalidTypeWidth`. -/
theorem type_from_width_spec (md : MainData) (hw64 : md.intBitWidth ≤ 64) :
    (∀ node : AstNode, (∀ v, node.variant ≠ .Constant v) →
       node.typeFromWidth md = .error (.InvalidType, node.start)) ∧
    (∀ v s e, v < 2 ^ md.intBitWidth →
       AstNode.typeFromWidth (.mk (.Constant v) s e) md =
         (if (if v.testBit (md.intBitWidth - 1) then 2 ^ md.intBitWidth - v else v) = 1
          then .ok (.int 8, v.testBit (md.intBitWidth - 1))
          else if (if v.testBit (md.intBitWidth - 1) then 2 ^ md.intBitWidth - v else v) = 2
          then .ok (.int 16, v.testBit (md.intBitWidth - 1))
          else if (if v.testBit (md.intBitWidth - 1) then 2 ^ md.intBitWidth - v else v) = 4
          then .ok (.int 32, v.testBit (md.intBitWidth - 1))
          else if (if v.testBit (md.intBitWidth - 1) then 2 ^ md.intBitWidth - v else v) = 8
          then .ok (.int 64, v.testBit (md.intBitWidth - 1))
          else if (if v.testBit (md.intBitWidth - 1) then 2 ^ md.intBitWidth - v else v) = 16
          then .ok (.int 128, v.testBit (md.intBitWidth - 1))
          else .error (.InvalidTypeWidth, s))) := by
  constructor
  · intro node hnc
    match node with
    | .mk variant start stop =>
      match variant with
      | .Constant v => exact absurd rfl (hnc v)
      | .Operator op ops => rfl
      | .Identifier n => rfl
      | .Block c b => rfl
      | .FunctionCall f a => rfl
      | .FunctionDefinition p b => rfl
      | .Str s => rfl
      | .Metadata m c => rfl
  · intro v s e hv
    set w := md.intBitWidth with hwdef
    have hmax : md.intMaxValue = 2 ^ w - 1 := rfl
    have hneg : ((md.signBitMask &&& v) != 0) = v.testBit (w - 1) :=
      and_single_bit_mask (w - 1) v
    rw [AstNode.typeFromWidth]
    simp only [hneg, hmax]
    cases ht : v.testBit (w - 1) with
    | false =>
      simp only [Bool.false_eq_true, if_false]
      split <;> simp_all
    | true =>
      have hv0 : v ≠ 0 := by
        intro h; rw [h] at ht; simp [Nat.zero_testBit] at ht
      have hb : ((v ^^^ (2 ^ w - 1)) + 1) % 2 ^ 64 = 2 ^ w - v := by
        rw [xor_two_pow_sub_one w v hv]
        have hone : 1 ≤ 2 ^ w := Nat.one_le_two_pow
        have h1 : 2 ^ w - 1 - v + 1 = 2 ^ w - v := by omega
        rw [h1]
        apply Nat.mod_eq_of_lt
        have : 2 ^ w ≤ 2 ^ 64 := Nat.pow_le_pow_right (by norm_num) hw64
        omega
      simp only [if_true, hb]
      split <;> simp_all

/-- C4 (witness): on a 64-bit unit, the constant encoding −4 (`2^64 − 4`,
sign bit set, magnitude 4) decodes to the signed 32-bit type. -/
theorem type_from_width_spec_witness :
    (MainData.mk 64).intBitWidth ≤ 64 ∧ (2 ^ 64 - 4 : Nat) < 2 ^ (MainData.mk 64).intBitWidth ∧
    AstNode.typeFromWidth (.mk (.Constant (2 ^ 64 - 4)) ⟨1, 5⟩ ⟨1, 7⟩) ⟨64⟩
      = .ok (.int 32, true) := by
  refine ⟨by norm_num, by norm_num, ?_⟩
  have h := (type_from_width_spec ⟨64⟩ (by norm_num)).2 (2 ^ 64 - 4) ⟨1, 5⟩ ⟨1, 7⟩ (by norm_num)
  rw [h]
  norm_num [Nat.testBit, Nat.shiftRight_eq_div_pow]

/-- `constEvaluateOperator` leaves every operator other than a normal integer
negate unevaluated. -/
theorem constEvaluateOperator_other (md : MainData) (op : Operator)
    (operands' : List AstNode) (s e : Pos) (hop : op ≠ .Normal .IntegerNegate) :
    constEvaluateOperator md op operands' s e
      = .ok (.mk (.Operator op operands') s e) := by
  cases op with
  | Assignment => rfl
  | LValueAssignment => rfl
  | Augmented o => rfl
  | Normal o =>
    cases o <;> first
      | rfl
      | exact absurd rfl hop

/-- `constEvaluateOperator` leaves a negate whose first (already evaluated)
operand is not a `Constant` unevaluated. -/
theorem constEvaluateOperator_negate_nonconstant (md : MainData)
    (operands' : List AstNode) (s e : Pos) (hne : operands' ≠ [])
    (hnc : ∀ v s' e' rest, operands' ≠ .mk (.Constant v) s' e' :: rest) :
    constEvaluateOperator md (.Normal .IntegerNegate) operands' s e
      = .ok (.mk (.Operator (.Normal .IntegerNegate) operands') s e) := by
  match operands', hne, hnc with
  | [], hne, hnc => exact absurd rfl hne
  | .mk variant s' e' :: rest, hne, hnc =>
    cases variant with
    | Constant v => exact absurd rfl (hnc v s' e' rest)
    | Identifier n => rfl
    | Str sv => rfl
    | Operator op ops => rfl
    | FunctionDefinition ps bd => rfl
    | FunctionCall f args => rfl
    | Block ch b => rfl
    | Metadata m c => rfl

/-- C5 (amended): `const_evaluate` folds exactly one pattern — a unary integer
negate over a `Constant` becomes a `Constant` holding the two's-complement
negation masked to the active integer width, with the span of the original
operator node; any other operator, and a negate whose (recursively evaluated)
first operand exists but is not a constant, is left unevaluated (the node
stays an `Operator` over the recursively processed operands) — but an integer
negate with no operands at all makes `const_evaluate` panic through the
`operands[0]` indexing instead of leaving the node unevaluated. -/
theorem const_evaluate_spec (md : MainData) (lf : Bool) (hw : md.intBitWidth ≤ 64) :
    (∀ v s₁ e₁ s e, v < 2 ^ md.intBitWidth →
       constEvaluate (.mk (.Operator (.Normal .IntegerNegate) [.mk (.Constant v) s₁ e₁]) s e)
           md lf
         = .ok (.mk (.Constant ((2 ^ md.intBitWidth - v) % 2 ^ md.intBitWidth)) s e)) ∧
    (∀ (op : Operator) (operands operands' : List AstNode) (s e : Pos),
       op ≠ .Normal .IntegerNegate →
       constEvaluateList operands md lf = .ok operands' →
       constEvaluate (.mk (.Operator op operands) s e) md lf
         = .ok (.mk (.Operator op operands') s e)) ∧
    (∀ (operands operands' : List AstNode) (s e : Pos),
       constEvaluateList operands md lf = .ok operands' →
       operands' ≠ [] →
       (∀ v s' e' rest, operands' ≠ .mk (.Constant v) s' e' :: rest) →
       constEvaluate (.mk (.Operator (.Normal .IntegerNegate) operands) s e) md lf
         = .ok (.mk (.Operator (.Normal .IntegerNegate) operands') s e)) ∧
    (∀ (s e : Pos),
       constEvaluate (.mk (.Operator (.Normal .IntegerNegate) []) s e) md lf
         = .error .panic) := by
  refine ⟨?_, ?_, ?_, ?_⟩
  · intro v s₁ e₁ s e hv
    have h1 : constEvaluate
          (.mk (.Operator (.Normal .IntegerNegate) [.mk (.Constant v) s₁ e₁]) s e) md lf
        = .ok (.mk (.Constant ((((v ^^^ md.intMaxValue) + 1) % 2 ^ 64) &&& md.intMaxValue))
            s e) := rfl
    rw [h1]
    have hmax : md.intMaxValue = 2 ^ md.intBitWidth - 1 := rfl
    rw [hmax, twos_complement_masked md.intBitWidth v hw hv]
  · intro op operands operands' s e hop hlist
    show (match constEvaluateList operands md lf with
      | .error err => (.error err : Except Issue AstNode)
      | .ok ops' => constEvaluateOperator md op ops' s e) = _
    rw [hlist]
    exact constEvaluateOperator_other md op operands' s e hop
  · intro operands operands' s e hlist hne hnc
    show (match constEvaluateList operands md lf with
      | .error err => (.error err : Except Issue AstNode)
      | .ok ops' => constEvaluateOperator md (.Normal .IntegerNegate) ops' s e) = _
    rw [hlist]
    exact constEvaluateOperator_negate_nonconstant md operands' s e hne hnc
  · intro s e
    rfl

/-- C5 (counterexample to the original claim): an integer negate with no
operands is not "left unevaluated" — `const_evaluate` panics on the
`operands[0]` indexing of the fold test. -/
theorem const_evaluate_negate_no_operand_panics :
    constEvaluate (.mk (.Operator (.Normal .IntegerNegate) []) ⟨1, 1⟩ ⟨1, 2⟩) ⟨64⟩ false
      = .error .panic
    ∧ constEvaluate (.mk (.Operator (.Normal .IntegerNegate) []) ⟨1, 1⟩ ⟨1, 2⟩) ⟨64⟩ false
      ≠ .ok (.mk (.Operator (.Normal .IntegerNegate) []) ⟨1, 1⟩ ⟨1, 2⟩) := by
  refine ⟨rfl, fun h => ?_⟩
  replace h : (.error .panic : Except Issue AstNode)
      = .ok (.mk (.Operator (.Normal .IntegerNegate) []) ⟨1, 1⟩ ⟨1, 2⟩) := h
  exact Except.noConfusion h

/-- C5 (witness): on a 64-bit unit, negating the literal 5 folds to the
literal `2^64 − 5`, at the span of the operator node; the zero-operand
negate panics. -/
theorem const_evaluate_spec_witness :
    (MainData.mk 64).intBitWidth ≤ 64 ∧ (5 : Nat) < 2 ^ (MainData.mk 64).intBitWidth ∧
    constEvaluate
        (.mk (.Operator (.Normal .IntegerNegate) [.mk (.Constant 5) ⟨1, 2⟩ ⟨1, 3⟩]) ⟨1, 1⟩ ⟨1, 3⟩)
        ⟨64⟩ false
      = .ok (.mk (.Constant 18446744073709551611) ⟨1, 1⟩ ⟨1, 3⟩) ∧
    constEvaluate (.mk (.Operator (.Normal .IntegerNegate) []) ⟨2, 1⟩ ⟨2, 2⟩) ⟨64⟩ false
      = .error .panic := by
  refine ⟨by norm_num, by norm_num, ?_, ?_⟩
  · have h := (const_evaluate_spec ⟨64⟩ false (by norm_num)).1 5 ⟨1, 2⟩ ⟨1, 3⟩ ⟨1, 1⟩ ⟨1, 3⟩
      (by norm_num)
    rw [h]
    norm_num
  · exact (const_evaluate_spec ⟨64⟩ false (by norm_num)).2.2.2 ⟨2, 1⟩ ⟨2, 2⟩

/-- C3 (counterexample): separating `(x = 5) + (x = 6)` does fail with
`GlobalVariableConflict`, but the global table then maps `x` to the *second*
node `Constant(6)` — not to the first inserted node `Constant(5)` as the claim
states, because `HashMap::insert` replaces the stored value before the
conflict is reported. -/
theorem separate_globals_duplicate_overwrites_first :
    (separateGlobals duplicateGlobalTree [] false).2.2
      = some (.error (.GlobalVariableConflict "x") ⟨2, 1⟩) ∧
    tableGet (separateGlobals duplicateGlobalTree [] false).2.1 "x"
      = some (.mk (.Constant 6) ⟨2, 5⟩ ⟨2, 6⟩) ∧
    tableGet (separateGlobals duplicateGlobalTree [] false).2.1 "x"
      ≠ some (.mk (.Constant 5) ⟨1, 5⟩ ⟨1, 6⟩) := by
  refine ⟨rfl, rfl, ?_⟩
  have h : tableGet (separateGlobals duplicateGlobalTree [] false).2.1 "x"
      = some (.mk (.Constant 6) ⟨2, 5⟩ ⟨2, 6⟩) := rfl
  rw [h]
  simp

/-- C3 (amended): for every root node holding two top-level assignments to the
same name (reached through an `Operator::Normal` node), `separate_globals`
fails with `GlobalVariableConflict`, and the global table afterwards maps the
name to the **second** inserted node — `HashMap::insert` replaces the first
value before the error is raised. -/
theorem separate_globals_duplicate_conflict
    (name : String) (v₁ v₂ : Nat) (is₁ ie₁ vs₁ ve₁ is₂ ie₂ vs₂ ve₂ s e : Pos) :
    separateGlobals
      (.mk (.Operator (.Normal .IntegerAdd)
        [.mk (.Operator .Assignment
            [.mk (.Identifier name) is₁ ie₁, .mk (.Constant v₁) vs₁ ve₁]) is₁ ve₁,
         .mk (.Operator .Assignment
            [.mk (.Identifier name) is₂ ie₂, .mk (.Constant v₂) vs₂ ve₂]) is₂ ve₂]) s e)
      [] false
    = (.mk (.Operator (.Normal .IntegerAdd)
          [.mk (.Identifier name) is₁ ie₁,
           .mk (.Operator .Assignment [dummyNode, dummyNode]) is₂ ve₂]) s e,
       [(name, .mk (.Constant v₂) vs₂ ve₂)],
       some (.error (.GlobalVariableConflict name) is₂)) := by
  simp [separateGlobals, separateGlobalsList, tableInsert, AstNode.variant]

/-- C10: whenever `separate_globals` returns an error while processing a
top-level `Assignment` node, both operand slots of that node have already been
replaced by the placeholder `Constant(0)` nodes with the dummy `1:1` span: the
failing run leaves the node in the mutated placeholder state. -/
theorem separate_globals_error_leaves_placeholders
    (l r : AstNode) (rest : List AstNode) (s e : Pos) (table : GlobalTable) (d : Bool)
    (node' : AstNode) (table' : GlobalTable) (err : Error) (pos : Pos)
    (h : separateGlobals (.mk (.Operator .Assignment (l :: r :: rest)) s e) table d
         = (node', table', some (.error err pos))) :
    node' = .mk (.Operator .Assignment (dummyNode :: dummyNode :: rest)) s e := by
  rw [separateGlobals] at h
  repeat' split at h
  all_goals simp only [Prod.mk.injEq, Option.some.injEq, Issue.error.injEq,
    reduceCtorEq, and_false, false_and] at h
  all_goals obtain ⟨h1, -⟩ := h
  all_goals exact h1.symm

/-- C10 (witness): separating `7 = 5` at top level fails with
`GlobalAssignmentToNonIdentifier` and leaves the node as
`Assignment(Constant(0), Constant(0))` with dummy spans. -/
theorem separate_globals_error_leaves_placeholders_witness :
    AstNode.mk (.Operator .Assignment [dummyNode, dummyNode]) ⟨1, 1⟩ ⟨1, 6⟩
      = .mk (.Operator .Assignment (dummyNode :: dummyNode :: [])) ⟨1, 1⟩ ⟨1, 6⟩ :=
  separate_globals_error_leaves_placeholders
    (.mk (.Constant 7) ⟨1, 1⟩ ⟨1, 2⟩) (.mk (.Constant 5) ⟨1, 5⟩ ⟨1, 6⟩) [] ⟨1, 1⟩ ⟨1, 6⟩
    [] true _ [] .GlobalAssignmentToNonIdentifier ⟨1, 1⟩ rfl

/-- C6 (amended): an ordinary `FunctionDefinition` is analyzed with a fresh
local-variable set holding exactly its parameter names and leaves the
enclosing local set untouched; the computed dependency/import sets are
independent of the enclosing scope's locals; as long as the body contains no
nested function definition, the dependency set computed from an empty start
never contains a parameter name (a read of a parameter inside a *nested*
definition does add it — see the counterexample); a `Link`-wrapped definition
scans its parameter nodes as dependency sources with the enclosing local set
passed through. -/
theorem get_variable_dependencies_function_definition :
    (∀ (params : List AstNode) (body : AstNode) (s e : Pos) (st : DepState)
       (freshLocals : List String),
       collectParameterNames params [] = .ok freshLocals →
       getVariableDependencies (.mk (.FunctionDefinition params body) s e) st false false
         = (match getVariableDependencies body { st with localVariables := freshLocals }
              false false with
            | .error err => .error err
            | .ok st' => .ok { st' with localVariables := st.localVariables })) ∧
    (∀ (params : List AstNode) (body : AstNode) (s e : Pos) (d i L₁ L₂ : List String),
       (getVariableDependencies (.mk (.FunctionDefinition params body) s e) ⟨d, i, L₁⟩
           false false).map (fun r => (r.variableDependencies, r.importDependencies))
         = (getVariableDependencies (.mk (.FunctionDefinition params body) s e) ⟨d, i, L₂⟩
             false false).map (fun r => (r.variableDependencies, r.importDependencies))) ∧
    (∀ (params : List AstNode) (body : AstNode) (s e : Pos) (i L : List String)
       (freshLocals : List String) (st' : DepState),
       collectParameterNames params [] = .ok freshLocals →
       body.functionDefinitionFree = true →
       getVariableDependencies (.mk (.FunctionDefinition params body) s e) ⟨[], i, L⟩
           false false = .ok st' →
       ∀ p, p ∈ freshLocals → p ∉ st'.variableDependencies) ∧
    (∀ (params : List AstNode) (body : AstNode) (s' e' s e : Pos) (st : DepState),
       getVariableDependencies
           (.mk (.Metadata .Link (.mk (.FunctionDefinition params body) s' e')) s e) st
           false false
         = (match getVariableDependenciesList params st false with
            | .error err => .error err
            | .ok st₁ => getVariableDependencies body st₁ false false)) := by
  have hfnDef : ∀ (params : List AstNode) (body : AstNode) (s e : Pos) (st : DepState),
      getVariableDependencies (.mk (.FunctionDefinition params body) s e) st false false
        = (match collectParameterNames params [] with
           | .error err => (.error err : Except Issue DepState)
           | .ok freshLocals =>
             match getVariableDependencies body { st with localVariables := freshLocals }
                 false false with
             | .error err => .error err
             | .ok st' => .ok { st' with localVariables := st.localVariables }) :=
    fun params body s e st => rfl
  refine ⟨?_, ?_, ?_, ?_⟩
  · intro params body s e st freshLocals hc
    rw [hfnDef, hc]
  · intro params body s e d i L₁ L₂
    rw [hfnDef, hfnDef]
    cases hc : collectParameterNames params [] with
    | error err => rfl
    | ok freshLocals =>
      cases hb : getVariableDependencies body ⟨d, i, freshLocals⟩ false false with
      | error err =>
        show (match getVariableDependencies body ⟨d, i, freshLocals⟩ false false with
          | .error err => (.error err : Except Issue DepState)
          | .ok st' => .ok { st' with localVariables := L₁ }).map _
          = (match getVariableDependencies body ⟨d, i, freshLocals⟩ false false with
          | .error err => (.error err : Except Issue DepState)
          | .ok st' => .ok { st' with localVariables := L₂ }).map _
        rw [hb]
      | ok st' =>
        show (match getVariableDependencies body ⟨d, i, freshLocals⟩ false false with
          | .error err => (.error err : Except Issue DepState)
          | .ok st' => .ok { st' with localVariables := L₁ }).map _
          = (match getVariableDependencies body ⟨d, i, freshLocals⟩ false false with
          | .error err => (.error err : Except Issue DepState)
          | .ok st' => .ok { st' with localVariables := L₂ }).map _
        rw [hb]
        rfl
  · intro params body s e i L freshLocals st' hc hfree h
    rw [hfnDef, hc] at h
    replace h : (match getVariableDependencies body ⟨[], i, freshLocals⟩ false false with
      | .error err => (.error err : Except Issue DepState)
      | .ok st₁ => .ok { st₁ with localVariables := L }) = .ok st' := h
    rcases hb : getVariableDependencies body ⟨[], i, freshLocals⟩ false false with err | st₁
    · rw [hb] at h
      exact absurd h (by simp)
    · rw [hb] at h
      simp only [Except.ok.injEq] at h
      subst h
      intro p hp hdep
      have hinv := gvd_invariant body ⟨[], i, freshLocals⟩ false false st₁ hfree hb
      rcases hinv.2 p hdep with hd | hd
      · simp at hd
      · exact hd hp
  · intro params body s' e' s e st
    rfl

end BCZ

namespace BCZ

/-- C6 (counterexample): for `fn(a) { fn(b) { a } }` the dependency set
computed for the outer function contains its own parameter name `a`: the
nested definition's fresh local set is seeded only with `b`, so the inner
read of `a` adds it as a (global) dependency, refuting "the computed
dependency set never contains a parameter name". -/
theorem nested_definition_parameter_becomes_dependency :
    collectParameterNames [paramA] [] = .ok ["a"] ∧
    getVariableDependencies nestedDefTree ⟨[], [], []⟩ false false = .ok ⟨["a"], [], []⟩ ∧
    "a" ∈ (["a"] : List String) :=
  ⟨rfl, rfl, by simp⟩

/-- C6 (witness): for `fn(a) { a + g }` analyzed under an enclosing local
`outer`, the dependency set is `{g}` and does not contain the parameter `a`. -/
theorem get_variable_dependencies_function_definition_witness :
    collectParameterNames [paramA] [] = .ok ["a"] ∧
    getVariableDependencies simpleFnTree ⟨[], [], ["outer"]⟩ false false
      = .ok ⟨["g"], [], ["outer"]⟩ ∧
    "a" ∉ (⟨["g"], [], ["outer"]⟩ : DepState).variableDependencies := by
  refine ⟨rfl, rfl, ?_⟩
  exact get_variable_dependencies_function_definition.2.2.1 [paramA]
    (.mk (.Operator (.Normal .IntegerAdd)
      [.mk (.Identifier "a") ⟨1, 12⟩ ⟨1, 13⟩, .mk (.Identifier "g") ⟨1, 16⟩ ⟨1, 17⟩])
      ⟨1, 12⟩ ⟨1, 17⟩)
    ⟨1, 5⟩ ⟨1, 18⟩ [] ["outer"] ["a"] ⟨["g"], [], ["outer"]⟩ rfl rfl rfl "a" (by simp)

/-- Helper: the accumulated base value never decreases along a digit run. -/
theorem digitRunValue_ge (base : Nat) (hb : 1 ≤ base) :
    ∀ (digits : List Char) (acc : Nat), acc ≤ digitRunValue base digits acc := by
  intro digits
  induction digits with
  | nil => intro acc; simp [digitRunValue]
  | cons c rest ih =>
    intro acc
    rw [digitRunValue]
    split
    · exact ih acc
    · refine le_trans ?_ (ih (acc * base + (charToDigit c base).getD 0))
      have h1 : acc * 1 ≤ acc * base := Nat.mul_le_mul_left acc hb
      omega

/-- Helper: unfolding one non-underscore digit step of the accumulation loop. -/
theorem parseDigitRun_cons_digit (maxVal base : Nat) (c : Char) (rest : List Char)
    (out digit : Nat) (hu : ¬c = '_') (hd : charToDigit c base = some digit) :
    parseDigitRun maxVal base (c :: rest) out =
      if out * base ≥ 2 ^ 64 then .error .NumericalLiteralTooLarge
      else if out * base + digit ≥ 2 ^ 64 then .error .NumericalLiteralTooLarge
      else if out * base + digit > maxVal then .error .NumericalLiteralTooLarge
      else parseDigitRun maxVal base rest (out * base + digit) := by
  rw [parseDigitRun, if_neg hu, hd]

/-- Helper: unfolding one non-underscore digit step of the pure value. -/
theorem digitRunValue_cons_digit (base : Nat) (c : Char) (rest : List Char)
    (acc digit : Nat) (hu : ¬c = '_') (hd : charToDigit c base = some digit) :
    digitRunValue base (c :: rest) acc = digitRunValue base rest (acc * base + digit) := by
  rw [digitRunValue, if_neg hu, hd]
  rfl

/-- Helper: a valid digit run either stays at or below the maximum and
returns the accumulated value, or exceeds it and fails with
`NumericalLiteralTooLarge`. -/
theorem parseDigitRun_cases (maxVal base : Nat) (hmax : maxVal < 2 ^ 64) (hb : 2 ≤ base) :
    ∀ (digits : List Char) (acc : Nat),
      (∀ c ∈ digits, c = '_' ∨ (charToDigit c base).isSome = true) →
      acc ≤ maxVal →
      (digitRunValue base digits acc ≤ maxVal ∧
         parseDigitRun maxVal base digits acc = .ok (digitRunValue base digits acc)) ∨
      (maxVal < digitRunValue base digits acc ∧
         parseDigitRun maxVal base digits acc = .error .NumericalLiteralTooLarge) := by
  intro digits
  induction digits with
  | nil =>
    intro acc _ hacc
    left
    exact ⟨by simpa [digitRunValue] using hacc, by simp [parseDigitRun, digitRunValue]⟩
  | cons c rest ih =>
    intro acc hall hacc
    have hc := hall c (by simp)
    by_cases hu : c = '_'
    · rw [digitRunValue, parseDigitRun, if_pos hu, if_pos hu]
      exact ih acc (fun x hx => hall x (by simp [hx])) hacc
    · rcases hc with hc | hc
      · exact absurd hc hu
      · obtain ⟨digit, hdig⟩ := Option.isSome_iff_exists.mp hc
        rw [parseDigitRun_cons_digit maxVal base c rest acc digit hu hdig,
            digitRunValue_cons_digit base c rest acc digit hu hdig]
        have hge := digitRunValue_ge base (by omega) rest (acc * base + digit)
        by_cases h1 : acc * base ≥ 2 ^ 64
        · rw [if_pos h1]
          right
          exact ⟨by omega, rfl⟩
        · rw [if_neg h1]
          by_cases h2 : acc * base + digit ≥ 2 ^ 64
          · rw [if_pos h2]
            right
            exact ⟨by omega, rfl⟩
          · rw [if_neg h2]
            by_cases h3 : acc * base + digit > maxVal
            · rw [if_pos h3]
              right
              exact ⟨by omega, rfl⟩
            · rw [if_neg h3]
              exact ih (acc * base + digit) (fun x hx => hall x (by simp [hx])) (by omega)

/-- Helper: a run of characters all satisfying the scan predicate spans the
whole line. -/
theorem spanLength_all (p : Char → Bool) :
    ∀ (l : List Char), (∀ x ∈ l, p x = true) → spanLength p l = l.length := by
  intro l
  induction l with
  | nil => intro _; rfl
  | cons c rest ih =>
    intro hall
    rw [spanLength, if_pos (hall c (by simp)), ih (fun x hx => hall x (by simp [hx]))]
    rfl

/-- Helper: a line starting with an ASCII digit is dispatched as a numeric
literal spanning the maximal alphanumeric/underscore/dot run. -/
theorem digit_dispatch (c : Char) (rest : List Char) (h : isAsciiDigit c = true) :
    tokenVariantDiscriminantAndLength (c :: rest)
      = .ok (.NumericalLiteral, spanLength isNumericalLiteralChar (c :: rest)) := by
  have hb : 48 ≤ c.toNat ∧ c.toNat ≤ 57 := by
    simpa [isAsciiDigit, Bool.and_eq_true, decide_eq_true_eq] using h
  have hslash : ¬c = '/' := by rintro rfl; exact absurd h (by decide)
  have hne1 : ¬((c :: rest).take 2 = ['/', '/']) := by
    intro he
    simp only [List.take_succ_cons, List.cons.injEq] at he
    exact hslash he.1
  have hne2 : ¬((c :: rest).take 2 = ['/', '*']) := by
    intro he
    simp only [List.take_succ_cons, List.cons.injEq] at he
    exact hslash he.1
  have hne3 : ¬((isAsciiAlphabetic c || decide (c = '_')) = true) := by
    simp only [Bool.or_eq_true, decide_eq_true_eq]
    rintro (ha | rfl)
    · have ha' : (65 ≤ c.toNat ∧ c.toNat ≤ 90) ∨ (97 ≤ c.toNat ∧ c.toNat ≤ 122) := by
        simpa [isAsciiAlphabetic, Bool.or_eq_true, Bool.and_eq_true,
          decide_eq_true_eq] using ha
      omega
    · exact absurd h (by decide)
  rw [tokenVariantDiscriminantAndLength, if_neg hne1, if_neg hne2, if_neg hne3, if_pos h]

/-- Helper: on an all-decimal line (not starting with `0`),
`tokenize_from_line` is exactly the digit-accumulation loop: a value token
over the whole line on success, the loop's error otherwise. -/
theorem tokenize_decimal_line (maxVal lineNumber columnNumber : Nat) (c : Char)
    (rest : List Char) (hd : isAsciiDigit c = true) (h0 : ¬c = '0')
    (hall : ∀ x ∈ c :: rest, isAsciiDigit x = true) :
    tokenizeFromLine maxVal (c :: rest) lineNumber columnNumber
      = match parseDigitRun maxVal 10 (c :: rest) 0 with
        | .ok v => .ok ⟨.NumericalLiteral v, lineNumber, columnNumber, (c :: rest).length⟩ []
        | .error e => .err e := by
  have hspan : spanLength isNumericalLiteralChar (c :: rest) = (c :: rest).length := by
    refine spanLength_all _ _ (fun x hx => ?_)
    have := hall x hx
    simp [isNumericalLiteralChar, isAsciiAlphanumeric, this]
  rw [tokenizeFromLine, digit_dispatch c rest hd]
  split
  · next e heq => simp at heq
  · next disc len heq =>
    simp only [Except.ok.injEq, Prod.mk.injEq] at heq
    obtain ⟨hdisc, hlen⟩ := heq
    subst hdisc
    subst hlen
    rw [hspan]
    rw [if_neg (by omega)]
    rw [show List.take (c :: rest).length (c :: rest) = c :: rest from List.take_length ..]
    rw [show List.drop (c :: rest).length (c :: rest) = [] from List.drop_length ..]
    simp only []
    rw [if_neg h0]
    split
    · next e heq =>
      rcases hp : parseDigitRun maxVal 10 (c :: rest) 0 with e' | v' <;>
        simp only [hp, Bool.false_eq_true, if_false, Except.error.injEq, reduceCtorEq] at heq
      · subst heq; rfl
    · next heq =>
      rcases hp : parseDigitRun maxVal 10 (c :: rest) 0 with e' | v' <;>
        simp only [hp, Bool.false_eq_true, if_false, Except.ok.injEq, reduceCtorEq,
          Option.some.injEq] at heq
    · next v heq =>
      rcases hp : parseDigitRun maxVal 10 (c :: rest) 0 with e' | v' <;>
        simp only [hp, Bool.false_eq_true, if_false, Except.ok.injEq, reduceCtorEq,
          Option.some.injEq] at heq
      · subst heq; rfl

/-- C8 (amended): a line whose first character is in the operator character
set is classified as an `Operator` token covering the maximal run of operator
characters, and a line starting with `@` as a `Keyword` token covering `@`
plus the following alphanumeric/underscore run — but the construction of the
`Operator` and `Keyword` token variants is unimplemented (`_ => todo!()`), so
`tokenize_from_line` panics on such lines instead of returning the token. -/
theorem tokenize_operator_keyword (maxVal lineNumber columnNumber : Nat) :
    (∀ (c : Char) (rest : List Char),
       operatorCharacterSet.contains c = true →
       ¬((c :: rest).take 2 = ['/', '/']) → ¬((c :: rest).take 2 = ['/', '*']) →
       tokenVariantDiscriminantAndLength (c :: rest)
           = .ok (.Operator, spanLength (fun x => operatorCharacterSet.contains x) (c :: rest)) ∧
       tokenizeFromLine maxVal (c :: rest) lineNumber columnNumber = .panic) ∧
    (∀ (rest : List Char),
       tokenVariantDiscriminantAndLength ('@' :: rest)
           = .ok (.Keyword,
              (match spanLength isIdentifierChar rest == rest.length with
               | true => ('@' :: rest).length
               | false => spanLength isIdentifierChar rest) + 1) ∧
       tokenizeFromLine maxVal ('@' :: rest) lineNumber columnNumber = .panic) := by
  constructor
  · intro c rest hc h1 h2
    have hmem : c ∈ operatorCharacterSet := List.mem_of_elem_eq_true hc
    have hd : tokenVariantDiscriminantAndLength (c :: rest)
        = .ok (.Operator, spanLength (fun x => operatorCharacterSet.contains x) (c :: rest)) := by
      rw [tokenVariantDiscriminantAndLength, if_neg h1, if_neg h2]
      simp only [operatorCharacterSet, List.mem_cons, List.not_mem_nil, or_false] at hmem
      rcases hmem with rfl|rfl|rfl|rfl|rfl|rfl|rfl|rfl|rfl|rfl|rfl|rfl|rfl|rfl|rfl|rfl|rfl <;> rfl
    refine ⟨hd, ?_⟩
    rw [tokenizeFromLine, hd]
    split
    · next e heq => simp at heq
    · next disc len heq =>
      simp only [Except.ok.injEq, Prod.mk.injEq] at heq
      obtain ⟨hdisc, hlen⟩ := heq
      subst hdisc
      repeat' split
      all_goals first | rfl | simp_all
      all_goals (split <;> rfl)
  · intro rest
    have hd : tokenVariantDiscriminantAndLength ('@' :: rest)
        = .ok (.Keyword,
            (match spanLength isIdentifierChar rest == rest.length with
             | true => ('@' :: rest).length
             | false => spanLength isIdentifierChar rest) + 1) := by
      rw [tokenVariantDiscriminantAndLength]
      rfl
    refine ⟨hd, ?_⟩
    rw [tokenizeFromLine, hd]
    split
    · next e heq => simp at heq
    · next disc len heq =>
      simp only [Except.ok.injEq, Prod.mk.injEq] at heq
      obtain ⟨hdisc, hlen⟩ := heq
      subst hdisc
      repeat' split
      all_goals first | rfl | simp_all
      all_goals (split <;> rfl)

/-- C8 (counterexample): on the lines `+=` and `@ab ` the tokenizer panics
(`todo!()`), so it does not return an `Operator` or `Keyword` token. -/
theorem tokenize_operator_keyword_counterexample :
    tokenizeFromLine (2 ^ 64 - 1) ['+', '='] 1 1 = .panic ∧
    (¬∃ t rest, tokenizeFromLine (2 ^ 64 - 1) ['+', '='] 1 1 = .ok t rest) ∧
    tokenizeFromLine (2 ^ 64 - 1) ['@', 'a', 'b', ' '] 1 1 = .panic ∧
    (¬∃ t rest, tokenizeFromLine (2 ^ 64 - 1) ['@', 'a', 'b', ' '] 1 1 = .ok t rest) := by
  refine ⟨rfl, ?_, rfl, ?_⟩
  · rintro ⟨t, rest, h⟩
    rw [show tokenizeFromLine (2 ^ 64 - 1) ['+', '='] 1 1 = TokenizeResult.panic from rfl] at h
    exact absurd h (by simp)
  · rintro ⟨t, rest, h⟩
    rw [show tokenizeFromLine (2 ^ 64 - 1) ['@', 'a', 'b', ' '] 1 1 = TokenizeResult.panic
      from rfl] at h
    exact absurd h (by simp)

/-- C8 (witness): `+= x` is classified as an operator token of length 2, and
tokenizing it panics. -/
theorem tokenize_operator_keyword_witness :
    operatorCharacterSet.contains '+' = true ∧
    tokenVariantDiscriminantAndLength ['+', '=', ' ', 'x']
      = .ok (.Operator, 2) ∧
    tokenizeFromLine 18446744073709551615 ['+', '=', ' ', 'x'] 1 1 = .panic := by
  have h := (tokenize_operator_keyword 18446744073709551615 1 1).1 '+' ['=', ' ', 'x']
    (by decide) (by decide) (by decide)
  exact ⟨by decide, h.1, h.2⟩

/-- C9: for a digit run of valid digits (underscores transparent), the
accumulation loop of `tokenize_from_line` fails with
`NumericalLiteralTooLarge` exactly when the accumulated value under the
declared base exceeds `int_max_value` (any intermediate `u64` overflow
implies this), and returns the value whenever it is at most the maximum; on
an all-decimal line the whole of `tokenize_from_line` reduces to this loop. -/
theorem numerical_literal_overflow (maxVal : Nat) (hmax : maxVal < 2 ^ 64) :
    (∀ (base : Nat) (digits : List Char), 2 ≤ base →
       (∀ c ∈ digits, c = '_' ∨ (charToDigit c base).isSome = true) →
       ((parseDigitRun maxVal base digits 0 = .error .NumericalLiteralTooLarge
           ↔ maxVal < digitRunValue base digits 0) ∧
        (digitRunValue base digits 0 ≤ maxVal →
           parseDigitRun maxVal base digits 0 = .ok (digitRunValue base digits 0)))) ∧
    (∀ (lineNumber columnNumber : Nat) (c : Char) (rest : List Char),
       isAsciiDigit c = true → ¬c = '0' → (∀ x ∈ c :: rest, isAsciiDigit x = true) →
       tokenizeFromLine maxVal (c :: rest) lineNumber columnNumber
         = match parseDigitRun maxVal 10 (c :: rest) 0 with
           | .ok v => .ok ⟨.NumericalLiteral v, lineNumber, columnNumber, (c :: rest).length⟩ []
           | .error e => .err e) := by
  constructor
  · intro base digits hb hall
    have hcases := parseDigitRun_cases maxVal base hmax hb digits 0 hall (by omega)
    refine ⟨⟨?_, ?_⟩, ?_⟩
    · intro he
      rcases hcases with ⟨hle, hok⟩ | ⟨hgt, _⟩
      · rw [hok] at he; exact absurd he (by simp)
      · exact hgt
    · intro hgt
      rcases hcases with ⟨hle, _⟩ | ⟨_, herr⟩
      · omega
      · exact herr
    · intro hle
      rcases hcases with ⟨_, hok⟩ | ⟨hgt, _⟩
      · exact hok
      · omega
  · exact fun ln col c rest => tokenize_decimal_line maxVal ln col c rest

/-- C9 (witness): the decimal literal for `2^64 − 1` parses successfully at
the 64-bit maximum itself, and `99` tokenizes to the numeric token 99. -/
theorem numerical_literal_overflow_witness :
    ((2 : Nat) ≤ 10) ∧
    parseDigitRun (2 ^ 64 - 1) 10
      ['1', '8', '4', '4', '6', '7', '4', '4', '0', '7', '3', '7', '0', '9', '5', '5', '1',
       '6', '1', '5'] 0 = .ok (2 ^ 64 - 1) ∧
    tokenizeFromLine (2 ^ 64 - 1) ['9', '9'] 1 1
      = .ok ⟨.NumericalLiteral 99, 1, 1, 2⟩ [] := by
  refine ⟨by norm_num, ?_, ?_⟩
  · have h := ((numerical_literal_overflow (2 ^ 64 - 1) (by norm_num)).1 10
      ['1', '8', '4', '4', '6', '7', '4', '4', '0', '7', '3', '7', '0', '9', '5', '5', '1',
       '6', '1', '5'] (by norm_num) (by decide)).2 (by decide)
    rw [h, show digitRunValue 10
      ['1', '8', '4', '4', '6', '7', '4', '4', '0', '7', '3', '7', '0', '9', '5', '5', '1',
       '6', '1', '5'] 0 = 2 ^ 64 - 1 from by decide]
  · have h2 := (numerical_literal_overflow (2 ^ 64 - 1) (by norm_num)).2 1 1 '9' ['9']
      (by decide) (by decide) (by decide)
    rw [h2]
    rfl

end BCZ

namespace BCZ

theorem buildLValue_monotone (md : MainData) (node : AstNode) (builder : Builder)
    (localVariables : List Scope) (lv : BuiltLValue) (builder' : Builder)
    (localVariables' : List Scope)
    (h : buildLValue md node builder localVariables = .ok (lv, builder', localVariables')) :
    builder.instrs <+: builder'.instrs := by
  match node, h with
  | .mk (.Identifier name) s e, h =>
    replace h : (match lookupScopes localVariables name with
      | some var => (.ok (var, builder, localVariables) :
          Except Issue (BuiltLValue × Builder × List Scope))
      | none =>
        match localVariables.getLast? with
        | none => .error .panic
        | some innermost =>
          .ok (BuiltLValue.AllocaVariable (.instr builder.instrs.length),
            (⟨builder.instrs ++ [Instr.alloca name]⟩ : Builder),
            localVariables.dropLast
              ++ [(name, BuiltLValue.AllocaVariable (.instr builder.instrs.length))
                    :: innermost])) = .ok (lv, builder', localVariables') := h
    split at h
    · simp only [Except.ok.injEq, Prod.mk.injEq] at h
      obtain ⟨-, h2, -⟩ := h
      subst h2
      exact List.prefix_rfl
    · split at h
      · exact absurd h (by simp)
      · simp only [Except.ok.injEq, Prod.mk.injEq] at h
        obtain ⟨-, h2, -⟩ := h
        subst h2
        exact List.prefix_append builder.instrs [Instr.alloca name]
  | .mk (.Constant v) s e, h => exact absurd h (by simp [buildLValue])
  | .mk (.Str sv) s e, h => exact absurd h (by simp [buildLValue])
  | .mk (.FunctionCall f a) s e, h => exact absurd h (by simp [buildLValue])
  | .mk (.FunctionDefinition p b) s e, h => exact absurd h (by simp [buildLValue])
  | .mk (.Metadata m c) s e, h => exact absurd h (by simp [buildLValue])
  | .mk (.Block c b) s e, h => exact absurd h (by simp [buildLValue])
  | .mk (.Operator o os) s e, h => exact absurd h (by simp [buildLValue])

theorem getVariableByName_monotone (fbd : FileBuildData) (builder : Builder)
    (localVariables : List Scope) (name : String) (v : Val) (builder' : Builder)
    (h : getVariableByName fbd builder localVariables name = .ok (v, builder')) :
    builder.instrs <+: builder'.instrs := by
  rw [getVariableByName] at h
  split at h
  · next var heq =>
    match var, h with
    | .AllocaVariable ptr, h =>
      simp only [BuiltLValue.getValue, Builder.emit, Except.ok.injEq, Prod.mk.injEq] at h
      obtain ⟨-, h2⟩ := h
      subst h2
      exact List.prefix_append builder.instrs [Instr.load ptr]
  · split at h
    · simp only [Except.ok.injEq, Prod.mk.injEq] at h
      obtain ⟨-, h2⟩ := h
      subst h2
      exact List.prefix_rfl
    · exact absurd h (by simp)

end BCZ

namespace BCZ

mutual

theorem buildRValue_monotone (md : MainData) (node : AstNode) (fbd : FileBuildData)
    (builder : Builder) (locals : List Scope) (v : Val) (fbd' : FileBuildData)
    (builder' : Builder) (locals' : List Scope)
    (h : buildRValue md node fbd builder locals = .ok (v, fbd', builder', locals')) :
    builder.instrs <+: builder'.instrs := by
  match node, h with
  | .mk (.Constant value) s e, h =>
    replace h : (.ok (.constInt value, fbd, builder, locals) :
        Except Issue (Val × FileBuildData × Builder × List Scope))
        = .ok (v, fbd', builder', locals') := h
    simp only [Except.ok.injEq, Prod.mk.injEq] at h
    obtain ⟨-, -, h3, -⟩ := h
    subst h3
    exact List.prefix_rfl
  | .mk (.Str sv) s e, h =>
    exact absurd (show (.error (.error (.FeatureNotYetImplemented "String literals") s) :
      Except Issue (Val × FileBuildData × Builder × List Scope))
        = .ok (v, fbd', builder', locals') from h) (by simp)
  | .mk (.Identifier name) s e, h =>
    replace h : (match getVariableByName fbd builder locals name with
      | .error err => (.error err : Except Issue (Val × FileBuildData × Builder × List Scope))
      | .ok (value, builder₁) => .ok (value, fbd, builder₁, locals))
        = .ok (v, fbd', builder', locals') := h
    split at h
    · exact absurd h (by simp)
    · next value builder₁ heq =>
      simp only [Except.ok.injEq, Prod.mk.injEq] at h
      obtain ⟨-, -, h3, -⟩ := h
      subst h3
      exact getVariableByName_monotone fbd builder locals name value builder₁ heq
  | .mk (.FunctionDefinition ps bd) s e, h =>
    replace h : (match buildFunctionDefinition md (.FunctionDefinition ps bd) s fbd
        "__bcz__unnamedFunction" false false with
      | .error err => (.error err : Except Issue (Val × FileBuildData × Builder × List Scope))
      | .ok (out, fbd₁, _) => .ok (out, fbd₁, builder, locals))
        = .ok (v, fbd', builder', locals') := h
    split at h
    · exact absurd h (by simp)
    · simp only [Except.ok.injEq, Prod.mk.injEq] at h
      obtain ⟨-, -, h3, -⟩ := h
      subst h3
      exact List.prefix_rfl
  | .mk (.Metadata m child) s e, h =>
    replace h : (if child.isFunction = true then
        match buildFunctionDefinition md (.Metadata m child) s fbd
            "__bcz__unnamedFunction" false false with
        | .error err => (.error err :
            Except Issue (Val × FileBuildData × Builder × List Scope))
        | .ok (out, fbd₁, _) => .ok (out, fbd₁, builder, locals)
      else .error .panic) = .ok (v, fbd', builder', locals') := h
    split at h
    · split at h
      · exact absurd h (by simp)
      · simp only [Except.ok.injEq, Prod.mk.injEq] at h
        obtain ⟨-, -, h3, -⟩ := h
        subst h3
        exact List.prefix_rfl
    · exact absurd h (by simp)
  | .mk (.Block blockExpressions isResultUndefined) s e, h =>
    cases isResultUndefined with
    | false =>
      replace h : (if locals.isEmpty = true then
          (.error (.error (.FeatureNotYetImplemented "Blocks in global scope") s) :
            Except Issue (Val × FileBuildData × Builder × List Scope))
        else
          match buildBlockExpressions md blockExpressions fbd builder
              (locals ++ [([] : Scope)]) none with
          | .error err => .error err
          | .ok (lastBuiltExpression, fbd₁, builder₁, locals₁) =>
            match false, lastBuiltExpression with
            | true, _ => .ok (.undef, fbd₁, builder₁, locals₁.dropLast)
            | false, none => .ok (.undef, fbd₁, builder₁, locals₁.dropLast)
            | false, some value => .ok (value, fbd₁, builder₁, locals₁.dropLast))
          = .ok (v, fbd', builder', locals') := h
      split at h
      · exact absurd h (by simp)
      · split at h
        · exact absurd h (by simp)
        · next lastBuilt fbd₁ builder₁ locals₁ heq =>
          have hpre := buildBlockExpressions_monotone md blockExpressions fbd builder
            (locals ++ [([] : Scope)]) none lastBuilt fbd₁ builder₁ locals₁ heq
          split at h <;>
            (simp only [Except.ok.injEq, Prod.mk.injEq] at h
             obtain ⟨-, -, h3, -⟩ := h
             subst h3
             exact hpre)
    | true =>
      replace h : (if blockExpressions.isEmpty = true then
          (.ok (.undef, fbd, builder, locals) :
            Except Issue (Val × FileBuildData × Builder × List Scope))
        else if locals.isEmpty = true then
          .error (.error (.FeatureNotYetImplemented "Blocks in global scope") s)
        else
          match buildBlockExpressions md blockExpressions fbd builder
              (locals ++ [([] : Scope)]) none with
          | .error err => .error err
          | .ok (lastBuiltExpression, fbd₁, builder₁, locals₁) =>
            .ok (.undef, fbd₁, builder₁, locals₁.dropLast))
          = .ok (v, fbd', builder', locals') := h
      split at h
      · simp only [Except.ok.injEq, Prod.mk.injEq] at h
        obtain ⟨-, -, h3, -⟩ := h
        subst h3
        exact List.prefix_rfl
      · split at h
        · exact absurd h (by simp)
        · split at h
          · exact absurd h (by simp)
          · next lastBuilt fbd₁ builder₁ locals₁ heq =>
            simp only [Except.ok.injEq, Prod.mk.injEq] at h
            obtain ⟨-, -, h3, -⟩ := h
            subst h3
            exact buildBlockExpressions_monotone md blockExpressions fbd builder
              (locals ++ [([] : Scope)]) none lastBuilt fbd₁ builder₁ locals₁ heq
  | .mk (.FunctionCall function arguments) s e, h =>
    replace h : (if locals.isEmpty = true then
        (.error (.error (.FeatureNotYetImplemented "Global function calls") s) :
          Except Issue (Val × FileBuildData × Builder × List Scope))
      else if arguments.length > 65535 then
        .error (.error .TooManyFunctionArguments s)
      else
        match buildRValue md function fbd builder locals with
        | .error err => .error err
        | .ok (functionPointerBuilt, fbd₁, builder₁, locals₁) =>
          match buildArguments md arguments fbd₁ builder₁ locals₁ with
          | .error err => .error err
          | .ok (argumentsBuilt, fbd₂, builder₂, locals₂) =>
            .ok (Val.instr (builder₂.instrs ++ [Instr.intToPtr functionPointerBuilt]).length,
              fbd₂,
              (⟨(builder₂.instrs ++ [Instr.intToPtr functionPointerBuilt])
                ++ [Instr.call (Val.instr builder₂.instrs.length) argumentsBuilt]⟩ : Builder),
              locals₂)) = .ok (v, fbd', builder', locals') := h
    split at h
    · exact absurd h (by simp)
    · split at h
      · exact absurd h (by simp)
      · split at h
        · exact absurd h (by simp)
        · next fnv fbd₁ builder₁ locals₁ heq₁ =>
          split at h
          · exact absurd h (by simp)
          · next argv fbd₂ builder₂ locals₂ heq₂ =>
            simp only [Except.ok.injEq, Prod.mk.injEq] at h
            obtain ⟨-, -, h3, -⟩ := h
            subst h3
            refine List.IsPrefix.trans
              (buildRValue_monotone md function fbd builder locals fnv fbd₁ builder₁
                locals₁ heq₁) ?_
            refine List.IsPrefix.trans
              (buildArguments_monotone md arguments fbd₁ builder₁ locals₁ argv fbd₂
                builder₂ locals₂ heq₂) ?_
            rw [List.append_assoc]
            exact List.prefix_append builder₂.instrs _
  | .mk (.Operator op operands) s e, h =>
    match op, h with
    | .Assignment, h =>
      match operands, h with
      | [], h =>
        exact absurd (show (.error .panic :
          Except Issue (Val × FileBuildData × Builder × List Scope))
            = .ok (v, fbd', builder', locals') from h) (by simp)
      | [x], h =>
        exact absurd (show (.error .panic :
          Except Issue (Val × FileBuildData × Builder × List Scope))
            = .ok (v, fbd', builder', locals') from h) (by simp)
      | lhs :: rhs :: rest, h =>
        replace h : (match buildRValue md rhs fbd builder locals with
          | .error err => (.error err :
              Except Issue (Val × FileBuildData × Builder × List Scope))
          | .ok (rValue, fbd₁, builder₁, locals₁) =>
            match buildLValue md lhs builder₁ locals₁ with
            | .error err => .error err
            | .ok (lValue, builder₂, locals₂) =>
              .ok (rValue, fbd₁, lValue.setValue rValue builder₂, locals₂))
            = .ok (v, fbd', builder', locals') := h
        split at h
        · exact absurd h (by simp)
        · next rValue fbd₁ builder₁ locals₁ heq₁ =>
          split at h
          · exact absurd h (by simp)
          · next lValue builder₂ locals₂ heq₂ =>
            simp only [Except.ok.injEq, Prod.mk.injEq] at h
            obtain ⟨-, -, h3, -⟩ := h
            subst h3
            obtain ⟨ptr⟩ := lValue
            exact List.IsPrefix.trans
              (buildRValue_monotone md rhs fbd builder locals rValue fbd₁ builder₁
                locals₁ heq₁)
              (List.IsPrefix.trans
                (buildLValue_monotone md lhs builder₁ locals₁ (.AllocaVariable ptr)
                  builder₂ locals₂ heq₂)
                (List.prefix_append builder₂.instrs _))
    | .LValueAssignment, h =>
      exact absurd (show (.error (.error (.FeatureNotYetImplemented "L-value assignments") s) :
        Except Issue (Val × FileBuildData × Builder × List Scope))
          = .ok (v, fbd', builder', locals') from h) (by simp)
    | .Augmented operation, h =>
      exact absurd (show (.error (.error (.FeatureNotYetImplemented "Augmented assignments") s) :
        Except Issue (Val × FileBuildData × Builder × List Scope))
          = .ok (v, fbd', builder', locals') from h) (by simp)
    | .Normal operation, h =>
      match operation, h with
      | .IntegerAdd, h =>
        match operands, h with
        | [], h =>
          exact absurd (show (.error .panic :
            Except Issue (Val × FileBuildData × Builder × List Scope))
              = .ok (v, fbd', builder', locals') from h) (by simp)
        | [x], h =>
          exact absurd (show (.error .panic :
            Except Issue (Val × FileBuildData × Builder × List Scope))
              = .ok (v, fbd', builder', locals') from h) (by simp)
        | lhs :: rhs :: rest, h =>
          replace h : (match buildRValue md lhs fbd builder locals with
            | .error err => (.error err :
                Except Issue (Val × FileBuildData × Builder × List Scope))
            | .ok (leftValue, fbd₁, builder₁, locals₁) =>
              match buildRValue md rhs fbd₁ builder₁ locals₁ with
              | .error err => .error err
              | .ok (rightValue, fbd₂, builder₂, locals₂) =>
                .ok (Val.instr builder₂.instrs.length, fbd₂,
                  (⟨builder₂.instrs
                    ++ [binaryInstr .IntegerAdd leftValue rightValue]⟩ : Builder), locals₂))
              = .ok (v, fbd', builder', locals') := h
          split at h
          · exact absurd h (by simp)
          · next leftValue fbd₁ builder₁ locals₁ heq₁ =>
            split at h
            · exact absurd h (by simp)
            · next rightValue fbd₂ builder₂ locals₂ heq₂ =>
              simp only [Except.ok.injEq, Prod.mk.injEq] at h
              obtain ⟨-, -, h3, -⟩ := h
              subst h3
              exact List.IsPrefix.trans
                (buildRValue_monotone md lhs fbd builder locals leftValue fbd₁ builder₁
                  locals₁ heq₁)
                (List.IsPrefix.trans
                  (buildRValue_monotone md rhs fbd₁ builder₁ locals₁ rightValue fbd₂
                    builder₂ locals₂ heq₂)
                  (List.prefix_append builder₂.instrs _))
      | .IntegerSubtract, h =>
        match operands, h with
        | [], h =>
          exact absurd (show (.error .panic :
            Except Issue (Val × FileBuildData × Builder × List Scope))
              = .ok (v, fbd', builder', locals') from h) (by simp)
        | [x], h =>
          exact absurd (show (.error .panic :
            Except Issue (Val × FileBuildData × Builder × List Scope))
              = .ok (v, fbd', builder', locals') from h) (by simp)
        | lhs :: rhs :: rest, h =>
          replace h : (match buildRValue md lhs fbd builder locals with
            | .error err => (.error err :
                Except Issue (Val × FileBuildData × Builder × List Scope))
            | .ok (leftValue, fbd₁, builder₁, locals₁) =>
              match buildRValue md rhs fbd₁ builder₁ locals₁ with
              | .error err => .error err
              | .ok (rightValue, fbd₂, builder₂, locals₂) =>
                .ok (Val.instr builder₂.instrs.length, fbd₂,
                  (⟨builder₂.instrs
                    ++ [binaryInstr .IntegerSubtract leftValue rightValue]⟩ : Builder), locals₂))
              = .ok (v, fbd', builder', locals') := h
          split at h
          · exact absurd h (by simp)
          · next leftValue fbd₁ builder₁ locals₁ heq₁ =>
            split at h
            · exact absurd h (by simp)
            · next rightValue fbd₂ builder₂ locals₂ heq₂ =>
              simp only [Except.ok.injEq, Prod.mk.injEq] at h
              obtain ⟨-, -, h3, -⟩ := h
              subst h3
              exact List.IsPrefix.trans
                (buildRValue_monotone md lhs fbd builder locals leftValue fbd₁ builder₁
                  locals₁ heq₁)
                (List.IsPrefix.trans
                  (buildRValue_monotone md rhs fbd₁ builder₁ locals₁ rightValue fbd₂
                    builder₂ locals₂ heq₂)
                  (List.prefix_append builder₂.instrs _))
      | .IntegerMultiply, h =>
        match operands, h with
        | [], h =>
          exact absurd (show (.error .panic :
            Except Issue (Val × FileBuildData × Builder × List Scope))
              = .ok (v, fbd', builder', locals') from h) (by simp)
        | [x], h =>
          exact absurd (show (.error .panic :
            Except Issue (Val × FileBuildData × Builder × List Scope))
              = .ok (v, fbd', builder', locals') from h) (by simp)
        | lhs :: rhs :: rest, h =>
          replace h : (match buildRValue md lhs fbd builder locals with
            | .error err => (.error err :
                Except Issue (Val × FileBuildData × Builder × List Scope))
            | .ok (leftValue, fbd₁, builder₁, locals₁) =>
              match buildRValue md rhs fbd₁ builder₁ locals₁ with
              | .error err => .error err
              | .ok (rightValue, fbd₂, builder₂, locals₂) =>
                .ok (Val.instr builder₂.instrs.length, fbd₂,
                  (⟨builder₂.instrs
                    ++ [binaryInstr .IntegerMultiply leftValue rightValue]⟩ : Builder), locals₂))
              = .ok (v, fbd', builder', locals') := h
          split at h
          · exact absurd h (by simp)
          · next leftValue fbd₁ builder₁ locals₁ heq₁ =>
            split at h
            · exact absurd h (by simp)
            · next rightValue fbd₂ builder₂ locals₂ heq₂ =>
              simp only [Except.ok.injEq, Prod.mk.injEq] at h
              obtain ⟨-, -, h3, -⟩ := h
              subst h3
              exact List.IsPrefix.trans
                (buildRValue_monotone md lhs fbd builder locals leftValue fbd₁ builder₁
                  locals₁ heq₁)
                (List.IsPrefix.trans
                  (buildRValue_monotone md rhs fbd₁ builder₁ locals₁ rightValue fbd₂
                    builder₂ locals₂ heq₂)
                  (List.prefix_append builder₂.instrs _))
      | .UnsignedDivide, h =>
        match operands, h with
        | [], h =>
          exact absurd (show (.error .panic :
            Except Issue (Val × FileBuildData × Builder × List Scope))
              = .ok (v, fbd', builder', locals') from h) (by simp)
        | [x], h =>
          exact absurd (show (.error .panic :
            Except Issue (Val × FileBuildData × Builder × List Scope))
              = .ok (v, fbd', builder', locals') from h) (by simp)
        | lhs :: rhs :: rest, h =>
          replace h : (match buildRValue md lhs fbd builder locals with
            | .error err => (.error err :
                Except Issue (Val × FileBuildData × Builder × List Scope))
            | .ok (leftValue, fbd₁, builder₁, locals₁) =>
              match buildRValue md rhs fbd₁ builder₁ locals₁ with
              | .error err => .error err
              | .ok (rightValue, fbd₂, builder₂, locals₂) =>
                .ok (Val.instr builder₂.instrs.length, fbd₂,
                  (⟨builder₂.instrs
                    ++ [binaryInstr .UnsignedDivide leftValue rightValue]⟩ : Builder), locals₂))
              = .ok (v, fbd', builder', locals') := h
          split at h
          · exact absurd h (by simp)
          · next leftValue fbd₁ builder₁ locals₁ heq₁ =>
            split at h
            · exact absurd h (by simp)
            · next rightValue fbd₂ builder₂ locals₂ heq₂ =>
              simp only [Except.ok.injEq, Prod.mk.injEq] at h
              obtain ⟨-, -, h3, -⟩ := h
              subst h3
              exact List.IsPrefix.trans
                (buildRValue_monotone md lhs fbd builder locals leftValue fbd₁ builder₁
                  locals₁ heq₁)
                (List.IsPrefix.trans
                  (buildRValue_monotone md rhs fbd₁ builder₁ locals₁ rightValue fbd₂
                    builder₂ locals₂ heq₂)
                  (List.prefix_append builder₂.instrs _))
      | .UnsignedModulo, h =>
        match operands, h with
        | [], h =>
          exact absurd (show (.error .panic :
            Except Issue (Val × FileBuildData × Builder × List Scope))
              = .ok (v, fbd', builder', locals') from h) (by simp)
        | [x], h =>
          exact absurd (show (.error .panic :
            Except Issue (Val × FileBuildData × Builder × List Scope))
              = .ok (v, fbd', builder', locals') from h) (by simp)
        | lhs :: rhs :: rest, h =>
          replace h : (match buildRValue md lhs fbd builder locals with
            | .error err => (.error err :
                Except Issue (Val × FileBuildData × Builder × List Scope))
            | .ok (leftValue, fbd₁, builder₁, locals₁) =>
              match buildRValue md rhs fbd₁ builder₁ locals₁ with
              | .error err => .error err
              | .ok (rightValue, fbd₂, builder₂, locals₂) =>
                .ok (Val.instr builder₂.instrs.length, fbd₂,
                  (⟨builder₂.instrs
                    ++ [binaryInstr .UnsignedModulo leftValue rightValue]⟩ : Builder), locals₂))
              = .ok (v, fbd', builder', locals') := h
          split at h
          · exact absurd h (by simp)
          · next leftValue fbd₁ builder₁ locals₁ heq₁ =>
            split at h
            · exact absurd h (by simp)
            · next rightValue fbd₂ builder₂ locals₂ heq₂ =>
              simp only [Except.ok.injEq, Prod.mk.injEq] at h
              obtain ⟨-, -, h3, -⟩ := h
              subst h3
              exact List.IsPrefix.trans
                (buildRValue_monotone md lhs fbd builder locals leftValue fbd₁ builder₁
                  locals₁ heq₁)
                (List.IsPrefix.trans
                  (buildRValue_monotone md rhs fbd₁ builder₁ locals₁ rightValue fbd₂
                    builder₂ locals₂ heq₂)
                  (List.prefix_append builder₂.instrs _))
      | .SignedDivide, h =>
        match operands, h with
        | [], h =>
          exact absurd (show (.error .panic :
            Except Issue (Val × FileBuildData × Builder × List Scope))
              = .ok (v, fbd', builder', locals') from h) (by simp)
        | [x], h =>
          exact absurd (show (.error .panic :
            Except Issue (Val × FileBuildData × Builder × List Scope))
              = .ok (v, fbd', builder', locals') from h) (by simp)
        | lhs :: rhs :: rest, h =>
          replace h : (match buildRValue md lhs fbd builder locals with
            | .error err => (.error err :
                Except Issue (Val × FileBuildData × Builder × List Scope))
            | .ok (leftValue, fbd₁, builder₁, locals₁) =>
              match buildRValue md rhs fbd₁ builder₁ locals₁ with
              | .error err => .error err
              | .ok (rightValue, fbd₂, builder₂, locals₂) =>
                .ok (Val.instr builder₂.instrs.length, fbd₂,
                  (⟨builder₂.instrs
                    ++ [binaryInstr .SignedDivide leftValue rightValue]⟩ : Builder), locals₂))
              = .ok (v, fbd', builder', locals') := h
          split at h
          · exact absurd h (by simp)
          · next leftValue fbd₁ builder₁ locals₁ heq₁ =>
            split at h
            · exact absurd h (by simp)
            · next rightValue fbd₂ builder₂ locals₂ heq₂ =>
              simp only [Except.ok.injEq, Prod.mk.injEq] at h
              obtain ⟨-, -, h3, -⟩ := h
              subst h3
              exact List.IsPrefix.trans
                (buildRValue_monotone md lhs fbd builder locals leftValue fbd₁ builder₁
                  locals₁ heq₁)
                (List.IsPrefix.trans
                  (buildRValue_monotone md rhs fbd₁ builder₁ locals₁ rightValue fbd₂
                    builder₂ locals₂ heq₂)
                  (List.prefix_append builder₂.instrs _))
      | .SignedTruncatedModulo, h =>
        match operands, h with
        | [], h =>
          exact absurd (show (.error .panic :
            Except Issue (Val × FileBuildData × Builder × List Scope))
              = .ok (v, fbd', builder', locals') from h) (by simp)
        | [x], h =>
          exact absurd (show (.error .panic :
            Except Issue (Val × FileBuildData × Builder × List Scope))
              = .ok (v, fbd', builder', locals') from h) (by simp)
        | lhs :: rhs :: rest, h =>
          replace h : (match buildRValue md lhs fbd builder locals with
            | .error err => (.error err :
                Except Issue (Val × FileBuildData × Builder × List Scope))
            | .ok (leftValue, fbd₁, builder₁, locals₁) =>
              match buildRValue md rhs fbd₁ builder₁ locals₁ with
              | .error err => .error err
              | .ok (rightValue, fbd₂, builder₂, locals₂) =>
                .ok (Val.instr builder₂.instrs.length, fbd₂,
                  (⟨builder₂.instrs
                    ++ [binaryInstr .SignedTruncatedModulo leftValue rightValue]⟩ : Builder), locals₂))
              = .ok (v, fbd', builder', locals') := h
          split at h
          · exact absurd h (by simp)
          · next leftValue fbd₁ builder₁ locals₁ heq₁ =>
            split at h
            · exact absurd h (by simp)
            · next rightValue fbd₂ builder₂ locals₂ heq₂ =>
              simp only [Except.ok.injEq, Prod.mk.injEq] at h
              obtain ⟨-, -, h3, -⟩ := h
              subst h3
              exact List.IsPrefix.trans
                (buildRValue_monotone md lhs fbd builder locals leftValue fbd₁ builder₁
                  locals₁ heq₁)
                (List.IsPrefix.trans
                  (buildRValue_monotone md rhs fbd₁ builder₁ locals₁ rightValue fbd₂
                    builder₂ locals₂ heq₂)
                  (List.prefix_append builder₂.instrs _))
      | .BitwiseAnd, h =>
        match operands, h with
        | [], h =>
          exact absurd (show (.error .panic :
            Except Issue (Val × FileBuildData × Builder × List Scope))
              = .ok (v, fbd', builder', locals') from h) (by simp)
        | [x], h =>
          exact absurd (show (.error .panic :
            Except Issue (Val × FileBuildData × Builder × List Scope))
              = .ok (v, fbd', builder', locals') from h) (by simp)
        | lhs :: rhs :: rest, h =>
          replace h : (match buildRValue md lhs fbd builder locals with
            | .error err => (.error err :
                Except Issue (Val × FileBuildData × Builder × List Scope))
            | .ok (leftValue, fbd₁, builder₁, locals₁) =>
              match buildRValue md rhs fbd₁ builder₁ locals₁ with
              | .error err => .error err
              | .ok (rightValue, fbd₂, builder₂, locals₂) =>
                .ok (Val.instr builder₂.instrs.length, fbd₂,
                  (⟨builder₂.instrs
                    ++ [binaryInstr .BitwiseAnd leftValue rightValue]⟩ : Builder), locals₂))
              = .ok (v, fbd', builder', locals') := h
          split at h
          · exact absurd h (by simp)
          · next leftValue fbd₁ builder₁ locals₁ heq₁ =>
            split at h
            · exact absurd h (by simp)
            · next rightValue fbd₂ builder₂ locals₂ heq₂ =>
              simp only [Except.ok.injEq, Prod.mk.injEq] at h
              obtain ⟨-, -, h3, -⟩ := h
              subst h3
              exact List.IsPrefix.trans
                (buildRValue_monotone md lhs fbd builder locals leftValue fbd₁ builder₁
                  locals₁ heq₁)
                (List.IsPrefix.trans
                  (buildRValue_monotone md rhs fbd₁ builder₁ locals₁ rightValue fbd₂
                    builder₂ locals₂ heq₂)
                  (List.prefix_append builder₂.instrs _))
      | .BitwiseOr, h =>
        match operands, h with
        | [], h =>
          exact absurd (show (.error .panic :
            Except Issue (Val × FileBuildData × Builder × List Scope))
              = .ok (v, fbd', builder', locals') from h) (by simp)
        | [x], h =>
          exact absurd (show (.error .panic :
            Except Issue (Val × FileBuildData × Builder × List Scope))
              = .ok (v, fbd', builder', locals') from h) (by simp)
        | lhs :: rhs :: rest, h =>
          replace h : (match buildRValue md lhs fbd builder locals with
            | .error err => (.error err :
                Except Issue (Val × FileBuildData × Builder × List Scope))
            | .ok (leftValue, fbd₁, builder₁, locals₁) =>
              match buildRValue md rhs fbd₁ builder₁ locals₁ with
              | .error err => .error err
              | .ok (rightValue, fbd₂, builder₂, locals₂) =>
                .ok (Val.instr builder₂.instrs.length, fbd₂,
                  (⟨builder₂.instrs
                    ++ [binaryInstr .BitwiseOr leftValue rightValue]⟩ : Builder), locals₂))
              = .ok (v, fbd', builder', locals') := h
          split at h
          · exact absurd h (by simp)
          · next leftValue fbd₁ builder₁ locals₁ heq₁ =>
            split at h
            · exact absurd h (by simp)
            · next rightValue fbd₂ builder₂ locals₂ heq₂ =>
              simp only [Except.ok.injEq, Prod.mk.injEq] at h
              obtain ⟨-, -, h3, -⟩ := h
              subst h3
              exact List.IsPrefix.trans
                (buildRValue_monotone md lhs fbd builder locals leftValue fbd₁ builder₁
                  locals₁ heq₁)
                (List.IsPrefix.trans
                  (buildRValue_monotone md rhs fbd₁ builder₁ locals₁ rightValue fbd₂
                    builder₂ locals₂ heq₂)
                  (List.prefix_append builder₂.instrs _))
      | .BitwiseXor, h =>
        match operands, h with
        | [], h =>
          exact absurd (show (.error .panic :
            Except Issue (Val × FileBuildData × Builder × List Scope))
              = .ok (v, fbd', builder', locals') from h) (by simp)
        | [x], h =>
          exact absurd (show (.error .panic :
            Except Issue (Val × FileBuildData × Builder × List Scope))
              = .ok (v, fbd', builder', locals') from h) (by simp)
        | lhs :: rhs :: rest, h =>
          replace h : (match buildRValue md lhs fbd builder locals with
            | .error err => (.error err :
                Except Issue (Val × FileBuildData × Builder × List Scope))
            | .ok (leftValue, fbd₁, builder₁, locals₁) =>
              match buildRValue md rhs fbd₁ builder₁ locals₁ with
              | .error err => .error err
              | .ok (rightValue, fbd₂, builder₂, locals₂) =>
                .ok (Val.instr builder₂.instrs.length, fbd₂,
                  (⟨builder₂.instrs
                    ++ [binaryInstr .BitwiseXor leftValue rightValue]⟩ : Builder), locals₂))
              = .ok (v, fbd', builder', locals') := h
          split at h
          · exact absurd h (by simp)
          · next leftValue fbd₁ builder₁ locals₁ heq₁ =>
            split at h
            · exact absurd h (by simp)
            · next rightValue fbd₂ builder₂ locals₂ heq₂ =>
              simp only [Except.ok.injEq, Prod.mk.injEq] at h
              obtain ⟨-, -, h3, -⟩ := h
              subst h3
              exact List.IsPrefix.trans
                (buildRValue_monotone md lhs fbd builder locals leftValue fbd₁ builder₁
                  locals₁ heq₁)
                (List.IsPrefix.trans
                  (buildRValue_monotone md rhs fbd₁ builder₁ locals₁ rightValue fbd₂
                    builder₂ locals₂ heq₂)
                  (List.prefix_append builder₂.instrs _))
      | .IntegerNegate, h =>
        match operands, h with
        | [], h =>
          exact absurd (show (.error .panic :
            Except Issue (Val × FileBuildData × Builder × List Scope))
              = .ok (v, fbd', builder', locals') from h) (by simp)
        | operand :: rest, h =>
          replace h : (match buildRValue md operand fbd builder locals with
            | .error err => (.error err :
                Except Issue (Val × FileBuildData × Builder × List Scope))
            | .ok (operandValue, fbd₁, builder₁, locals₁) =>
              .ok (Val.instr builder₁.instrs.length, fbd₁,
                (⟨builder₁.instrs ++ [Instr.neg operandValue]⟩ : Builder), locals₁))
              = .ok (v, fbd', builder', locals') := h
          split at h
          · exact absurd h (by simp)
          · next operandValue fbd₁ builder₁ locals₁ heq₁ =>
            simp only [Except.ok.injEq, Prod.mk.injEq] at h
            obtain ⟨-, -, h3, -⟩ := h
            subst h3
            exact List.IsPrefix.trans
              (buildRValue_monotone md operand fbd builder locals operandValue fbd₁
                builder₁ locals₁ heq₁)
              (List.prefix_append builder₁.instrs _)
      | .Dereference, h =>
        match operands, h with
        | [], h =>
          exact absurd (show (.error .panic :
            Except Issue (Val × FileBuildData × Builder × List Scope))
              = .ok (v, fbd', builder', locals') from h) (by simp)
        | operand :: rest, h =>
          replace h : (match buildRValue md operand fbd builder locals with
            | .error err => (.error err :
                Except Issue (Val × FileBuildData × Builder × List Scope))
            | .ok (operandValue, fbd₁, builder₁, locals₁) =>
              .ok (Val.instr (builder₁.instrs ++ [Instr.intToPtr operandValue]).length, fbd₁,
                (⟨(builder₁.instrs ++ [Instr.intToPtr operandValue])
                  ++ [Instr.load (Val.instr builder₁.instrs.length)]⟩ : Builder), locals₁))
              = .ok (v, fbd', builder', locals') := h
          split at h
          · exact absurd h (by simp)
          · next operandValue fbd₁ builder₁ locals₁ heq₁ =>
            simp only [Except.ok.injEq, Prod.mk.injEq] at h
            obtain ⟨-, -, h3, -⟩ := h
            subst h3
            refine List.IsPrefix.trans
              (buildRValue_monotone md operand fbd builder locals operandValue fbd₁
                builder₁ locals₁ heq₁) ?_
            rw [List.append_assoc]
            exact List.prefix_append builder₁.instrs _
      | .TakeReference, h =>
        match operands, h with
        | [], h =>
          exact absurd (show (.error .panic :
            Except Issue (Val × FileBuildData × Builder × List Scope))
              = .ok (v, fbd', builder', locals') from h) (by simp)
        | operand :: rest, h =>
          replace h : (match buildLValue md operand builder locals with
            | .error err => (.error err :
                Except Issue (Val × FileBuildData × Builder × List Scope))
            | .ok (lval, builder₁, locals₁) =>
              .ok (Val.instr builder₁.instrs.length, fbd,
                (⟨builder₁.instrs
                  ++ [Instr.ptrToInt lval.getPointer]⟩ : Builder), locals₁))
              = .ok (v, fbd', builder', locals') := h
          split at h
          · exact absurd h (by simp)
          · next lval builder₁ locals₁ heq₁ =>
            simp only [Except.ok.injEq, Prod.mk.injEq] at h
            obtain ⟨-, -, h3, -⟩ := h
            subst h3
            exact List.IsPrefix.trans
              (buildLValue_monotone md operand builder locals lval builder₁ locals₁ heq₁)
              (List.prefix_append builder₁.instrs _)
      | .Read, h =>
        match operands, h with
        | [], h =>
          exact absurd (show (.error .panic :
            Except Issue (Val × FileBuildData × Builder × List Scope))
              = .ok (v, fbd', builder', locals') from h) (by simp)
        | operand :: rest, h =>
          replace h : (match buildLValue md operand builder locals with
            | .error err => (.error err :
                Except Issue (Val × FileBuildData × Builder × List Scope))
            | .ok (lval, builder₁, locals₁) =>
              .ok ((BuiltLValue.getValue lval builder₁).1, fbd,
                (BuiltLValue.getValue lval builder₁).2, locals₁))
              = .ok (v, fbd', builder', locals') := h
          split at h
          · exact absurd h (by simp)
          · next lval builder₁ locals₁ heq₁ =>
            simp only [Except.ok.injEq, Prod.mk.injEq] at h
            obtain ⟨-, -, h3, -⟩ := h
            subst h3
            obtain ⟨ptr⟩ := lval
            exact List.IsPrefix.trans
              (buildLValue_monotone md operand builder locals (.AllocaVariable ptr)
                builder₁ locals₁ heq₁)
              (List.prefix_append builder₁.instrs _)
      | .FloatAdd, h | .FloatSubtract, h | .FloatMultiply, h | .FloatDivide, h
      | .FloatTruncatedModulo, h | .FloatNegate, h
      | .LogicalNotShortCircuitAnd, h | .LogicalNotShortCircuitOr, h
      | .LogicalNotShortCircuitXor, h | .LogicalShortCircuitAnd, h
      | .LogicalShortCircuitOr, h | .LogicalShortCircuitXor, h =>
        exact absurd (show (.error (.error (.FeatureNotYetImplemented "This operator") s) :
          Except Issue (Val × FileBuildData × Builder × List Scope))
            = .ok (v, fbd', builder', locals') from h) (by simp)

theorem buildBlockExpressions_monotone (md : MainData) (expressions : List AstNode)
    (fbd : FileBuildData) (builder : Builder) (locals : List Scope) (lastBuilt : Option Val)
    (r : Option Val) (fbd' : FileBuildData) (builder' : Builder) (locals' : List Scope)
    (h : buildBlockExpressions md expressions fbd builder locals lastBuilt
         = .ok (r, fbd', builder', locals')) :
    builder.instrs <+: builder'.instrs := by
  match expressions, h with
  | [], h =>
    replace h : (.ok (lastBuilt, fbd, builder, locals) :
        Except Issue (Option Val × FileBuildData × Builder × List Scope))
        = .ok (r, fbd', builder', locals') := h
    simp only [Except.ok.injEq, Prod.mk.injEq] at h
    obtain ⟨-, -, h3, -⟩ := h
    subst h3
    exact List.prefix_rfl
  | expr :: rest, h =>
    replace h : (match buildRValue md expr fbd builder locals with
      | .error err => (.error err :
          Except Issue (Option Val × FileBuildData × Builder × List Scope))
      | .ok (value, fbd₁, builder₁, locals₁) =>
        buildBlockExpressions md rest fbd₁ builder₁ locals₁ (some value))
        = .ok (r, fbd', builder', locals') := h
    split at h
    · exact absurd h (by simp)
    · next value fbd₁ builder₁ locals₁ heq =>
      exact List.IsPrefix.trans
        (buildRValue_monotone md expr fbd builder locals value fbd₁ builder₁ locals₁ heq)
        (buildBlockExpressions_monotone md rest fbd₁ builder₁ locals₁ (some value) r fbd'
          builder' locals' h)

theorem buildArguments_monotone (md : MainData) (arguments : List AstNode)
    (fbd : FileBuildData) (builder : Builder) (locals : List Scope)
    (rs : List Val) (fbd' : FileBuildData) (builder' : Builder) (locals' : List Scope)
    (h : buildArguments md arguments fbd builder locals = .ok (rs, fbd', builder', locals')) :
    builder.instrs <+: builder'.instrs := by
  match arguments, h with
  | [], h =>
    replace h : (.ok ([], fbd, builder, locals) :
        Except Issue (List Val × FileBuildData × Builder × List Scope))
        = .ok (rs, fbd', builder', locals') := h
    simp only [Except.ok.injEq, Prod.mk.injEq] at h
    obtain ⟨-, -, h3, -⟩ := h
    subst h3
    exact List.prefix_rfl
  | a :: rest, h =>
    replace h : (match buildRValue md a fbd builder locals with
      | .error err => (.error err :
          Except Issue (List Val × FileBuildData × Builder × List Scope))
      | .ok (value, fbd₁, builder₁, locals₁) =>
        match buildArguments md rest fbd₁ builder₁ locals₁ with
        | .error err => .error err
        | .ok (values, fbd₂, builder₂, locals₂) =>
          .ok (value :: values, fbd₂, builder₂, locals₂))
        = .ok (rs, fbd', builder', locals') := h
    split at h
    · exact absurd h (by simp)
    · next value fbd₁ builder₁ locals₁ heq₁ =>
      split at h
      · exact absurd h (by simp)
      · next values fbd₂ builder₂ locals₂ heq₂ =>
        simp only [Except.ok.injEq, Prod.mk.injEq] at h
        obtain ⟨-, -, h3, -⟩ := h
        subst h3
        exact List.IsPrefix.trans
          (buildRValue_monotone md a fbd builder locals value fbd₁ builder₁ locals₁ heq₁)
          (buildArguments_monotone md rest fbd₁ builder₁ locals₁ values fbd₂ builder₂
            locals₂ heq₂)

end

end BCZ

namespace BCZ

/-- Dispatch lemma: on any of the ten lowered binary integer/bitwise
operations, `buildRValue` of the operator node runs the left operand first,
the right operand second, and then appends the selected instruction. -/
theorem buildRValue_binary_eq (op : Operation) (hop : isBinaryIntegerOperation op = true)
    (md : MainData) (lhs rhs : AstNode) (rest : List AstNode) (s e : Pos)
    (fbd : FileBuildData) (builder : Builder) (locals : List Scope) :
    buildRValue md (.mk (.Operator (.Normal op) (lhs :: rhs :: rest)) s e) fbd builder locals
      = (match buildRValue md lhs fbd builder locals with
        | .error err => (.error err :
            Except Issue (Val × FileBuildData × Builder × List Scope))
        | .ok (leftValue, fbd₁, builder₁, locals₁) =>
          match buildRValue md rhs fbd₁ builder₁ locals₁ with
          | .error err => .error err
          | .ok (rightValue, fbd₂, builder₂, locals₂) =>
            .ok (.instr builder₂.instrs.length, fbd₂,
              (⟨builder₂.instrs ++ [binaryInstr op leftValue rightValue]⟩ : Builder),
              locals₂)) := by
  cases op <;> first
    | rfl
    | exact absurd hop (by decide)

theorem buildRValue_binary_forward (op : Operation)
    (hop : isBinaryIntegerOperation op = true)
    (md : MainData) (lhs rhs : AstNode) (rest : List AstNode) (s e : Pos)
    (fbd : FileBuildData) (builder : Builder) (locals : List Scope)
    (leftValue : Val) (fbd₁ : FileBuildData) (builder₁ : Builder) (locals₁ : List Scope)
    (rightValue : Val) (fbd₂ : FileBuildData) (builder₂ : Builder) (locals₂ : List Scope)
    (h₁ : buildRValue md lhs fbd builder locals = .ok (leftValue, fbd₁, builder₁, locals₁))
    (h₂ : buildRValue md rhs fbd₁ builder₁ locals₁
          = .ok (rightValue, fbd₂, builder₂, locals₂)) :
    buildRValue md (.mk (.Operator (.Normal op) (lhs :: rhs :: rest)) s e) fbd builder locals
      = .ok (.instr builder₂.instrs.length, fbd₂,
          (⟨builder₂.instrs ++ [binaryInstr op leftValue rightValue]⟩ : Builder),
          locals₂) := by
  rw [buildRValue_binary_eq op hop, h₁]
  simp only [h₂]

theorem buildRValue_assignment_forward (md : MainData) (lhs rhs : AstNode)
    (rest : List AstNode) (s e : Pos)
    (fbd : FileBuildData) (builder : Builder) (locals : List Scope)
    (rValue : Val) (fbd₁ : FileBuildData) (builder₁ : Builder) (locals₁ : List Scope)
    (lValue : BuiltLValue) (builder₂ : Builder) (locals₂ : List Scope)
    (h₁ : buildRValue md rhs fbd builder locals = .ok (rValue, fbd₁, builder₁, locals₁))
    (h₂ : buildLValue md lhs builder₁ locals₁ = .ok (lValue, builder₂, locals₂)) :
    buildRValue md (.mk (.Operator .Assignment (lhs :: rhs :: rest)) s e) fbd builder locals
      = .ok (rValue, fbd₁, lValue.setValue rValue builder₂, locals₂) := by
  have heq : buildRValue md (.mk (.Operator .Assignment (lhs :: rhs :: rest)) s e) fbd
        builder locals
      = (match buildRValue md rhs fbd builder locals with
        | .error err => (.error err :
            Except Issue (Val × FileBuildData × Builder × List Scope))
        | .ok (rValue', fbd₁', builder₁', locals₁') =>
          match buildLValue md lhs builder₁' locals₁' with
          | .error err => .error err
          | .ok (lValue', builder₂', locals₂') =>
            .ok (rValue', fbd₁', lValue'.setValue rValue' builder₂', locals₂')) := rfl
  rw [heq, h₁]
  simp only [h₂]

end BCZ

namespace BCZ

/-- C1 (amended): code generation emits instructions append-only, and for the
ten lowered binary integer/bitwise operator nodes the left operand's
instructions are emitted first, the right operand's second, followed by the
operation's own instruction — but an `Operator::Assignment` node builds its
second (right-hand) operand's r-value first and only then builds the first
(left-hand) operand's l-value, so for assignments the right operand's
instructions precede the left operand's. -/
theorem build_r_value_operand_order :
    (∀ (md : MainData) (node : AstNode) (fbd : FileBuildData) (builder : Builder)
        (locals : List Scope) (v : Val) (fbd' : FileBuildData) (builder' : Builder)
        (locals' : List Scope),
      buildRValue md node fbd builder locals = .ok (v, fbd', builder', locals') →
      builder.instrs <+: builder'.instrs)
    ∧ (∀ (op : Operation), isBinaryIntegerOperation op = true →
        ∀ (md : MainData) (lhs rhs : AstNode) (rest : List AstNode) (s e : Pos)
          (fbd : FileBuildData) (builder : Builder) (locals : List Scope)
          (leftValue : Val) (fbd₁ : FileBuildData) (builder₁ : Builder)
          (locals₁ : List Scope) (rightValue : Val) (fbd₂ : FileBuildData)
          (builder₂ : Builder) (locals₂ : List Scope),
        buildRValue md lhs fbd builder locals = .ok (leftValue, fbd₁, builder₁, locals₁) →
        buildRValue md rhs fbd₁ builder₁ locals₁
          = .ok (rightValue, fbd₂, builder₂, locals₂) →
        buildRValue md (.mk (.Operator (.Normal op) (lhs :: rhs :: rest)) s e) fbd builder
            locals
          = .ok (.instr builder₂.instrs.length, fbd₂,
              (⟨builder₂.instrs ++ [binaryInstr op leftValue rightValue]⟩ : Builder),
              locals₂))
    ∧ (∀ (md : MainData) (lhs rhs : AstNode) (rest : List AstNode) (s e : Pos)
          (fbd : FileBuildData) (builder : Builder) (locals : List Scope)
          (rValue : Val) (fbd₁ : FileBuildData) (builder₁ : Builder)
          (locals₁ : List Scope) (lValue : BuiltLValue) (builder₂ : Builder)
          (locals₂ : List Scope),
        buildRValue md rhs fbd builder locals = .ok (rValue, fbd₁, builder₁, locals₁) →
        buildLValue md lhs builder₁ locals₁ = .ok (lValue, builder₂, locals₂) →
        buildRValue md (.mk (.Operator .Assignment (lhs :: rhs :: rest)) s e) fbd builder
            locals
          = .ok (rValue, fbd₁, lValue.setValue rValue builder₂, locals₂)) := by
  refine ⟨?_, ?_, ?_⟩
  · intro md node fbd builder locals v fbd' builder' locals' h
    exact buildRValue_monotone md node fbd builder locals v fbd' builder' locals' h
  · intro op hop md lhs rhs rest s e fbd builder locals lv f1 b1 l1 rv f2 b2 l2 h1 h2
    exact buildRValue_binary_forward op hop md lhs rhs rest s e fbd builder locals
      lv f1 b1 l1 rv f2 b2 l2 h1 h2
  · intro md lhs rhs rest s e fbd builder locals rv f1 b1 l1 lV b2 l2 h1 h2
    exact buildRValue_assignment_forward md lhs rhs rest s e fbd builder locals
      rv f1 b1 l1 lV b2 l2 h1 h2

/-- C1 counterexample to the original claim: building `x = (1 + 2)` emits the
right operand's `add` at index 0 and the left operand's `alloca` only
afterwards at index 1, so for `Operator::Assignment` the first (left)
operand's instructions do not precede the second (right) operand's. -/
theorem assignment_builds_right_operand_first :
    buildRValue ⟨64⟩ assignTree ⟨[], none⟩ ⟨[]⟩ [([] : Scope)]
      = .ok (.instr 0, ⟨[], none⟩,
          (⟨[.add (.constInt 1) (.constInt 2), .alloca "x",
             .store (.instr 1) (.instr 0)]⟩ : Builder),
          [[("x", .AllocaVariable (.instr 1))]])
    ∧ buildRValue ⟨64⟩ (.mk (.Operator (.Normal .IntegerAdd)
          [.mk (.Constant 1) ⟨1, 5⟩ ⟨1, 6⟩, .mk (.Constant 2) ⟨1, 9⟩ ⟨1, 10⟩])
          ⟨1, 5⟩ ⟨1, 10⟩) ⟨[], none⟩ ⟨[]⟩ [([] : Scope)]
      = .ok (.instr 0, ⟨[], none⟩,
          (⟨[.add (.constInt 1) (.constInt 2)]⟩ : Builder), [([] : Scope)])
    ∧ buildLValue ⟨64⟩ (.mk (.Identifier "x") ⟨1, 1⟩ ⟨1, 2⟩) ⟨[]⟩ [([] : Scope)]
      = .ok (.AllocaVariable (.instr 0), (⟨[.alloca "x"]⟩ : Builder),
          [[("x", .AllocaVariable (.instr 0))]])
    ∧ [Instr.add (.constInt 1) (.constInt 2), .alloca "x",
        .store (.instr 1) (.instr 0)].indexOf (Instr.add (.constInt 1) (.constInt 2)) = 0
    ∧ [Instr.add (.constInt 1) (.constInt 2), .alloca "x",
        .store (.instr 1) (.instr 0)].indexOf (Instr.alloca "x") = 1 :=
  ⟨rfl, rfl, rfl, by decide, by decide⟩

/-- C1 witness: the amended theorem applied to `1 + 2` (left-first binary
lowering) and to `x = (1 + 2)` (right-first assignment lowering). -/
theorem build_r_value_operand_order_witness :
    buildRValue ⟨64⟩ (.mk (.Operator (.Normal .IntegerAdd)
        [.mk (.Constant 1) ⟨1, 5⟩ ⟨1, 6⟩, .mk (.Constant 2) ⟨1, 9⟩ ⟨1, 10⟩])
        ⟨1, 5⟩ ⟨1, 10⟩) ⟨[], none⟩ ⟨[]⟩ [([] : Scope)]
      = .ok (.instr 0, ⟨[], none⟩,
          (⟨[.add (.constInt 1) (.constInt 2)]⟩ : Builder), [([] : Scope)])
    ∧ buildRValue ⟨64⟩ assignTree ⟨[], none⟩ ⟨[]⟩ [([] : Scope)]
      = .ok (.instr 0, ⟨[], none⟩,
          (⟨[.add (.constInt 1) (.constInt 2), .alloca "x",
             .store (.instr 1) (.instr 0)]⟩ : Builder),
          [[("x", .AllocaVariable (.instr 1))]]) := by
  constructor
  · exact build_r_value_operand_order.2.1 .IntegerAdd rfl ⟨64⟩
      (.mk (.Constant 1) ⟨1, 5⟩ ⟨1, 6⟩) (.mk (.Constant 2) ⟨1, 9⟩ ⟨1, 10⟩) [] ⟨1, 5⟩ ⟨1, 10⟩
      ⟨[], none⟩ ⟨[]⟩ [([] : Scope)]
      (.constInt 1) ⟨[], none⟩ ⟨[]⟩ [([] : Scope)]
      (.constInt 2) ⟨[], none⟩ ⟨[]⟩ [([] : Scope)] rfl rfl
  · exact build_r_value_operand_order.2.2 ⟨64⟩
      (.mk (.Identifier "x") ⟨1, 1⟩ ⟨1, 2⟩)
      (.mk (.Operator (.Normal .IntegerAdd)
        [.mk (.Constant 1) ⟨1, 5⟩ ⟨1, 6⟩, .mk (.Constant 2) ⟨1, 9⟩ ⟨1, 10⟩]) ⟨1, 5⟩ ⟨1, 10⟩)
      [] ⟨1, 1⟩ ⟨1, 10⟩ ⟨[], none⟩ ⟨[]⟩ [([] : Scope)]
      (.instr 0) ⟨[], none⟩ (⟨[.add (.constInt 1) (.constInt 2)]⟩ : Builder) [([] : Scope)]
      (.AllocaVariable (.instr 1))
      (⟨[.add (.constInt 1) (.constInt 2), .alloca "x"]⟩ : Builder)
      [[("x", .AllocaVariable (.instr 1))]] rfl rfl

end BCZ

namespace BCZ

theorem tfwl_singleton (n : AstNode) (md : MainData) (t : LlvmType × Bool)
    (h : n.typeFromWidth md = .ok t) : typeFromWidthList [n] md = .ok [t] := by
  show (match n.typeFromWidth md with
    | .error e => (.error e : Except (Error × Pos) (List (LlvmType × Bool)))
    | .ok t' =>
      match typeFromWidthList [] md with
      | .error e => .error e
      | .ok ts => .ok (t' :: ts)) = .ok [t]
  rw [h]
  rfl

theorem typeFromWidth_one (md : MainData) (s e : Pos)
    (h : ((md.signBitMask &&& 1 : Nat) != 0) = false) :
    (AstNode.mk (.Constant 1) s e).typeFromWidth md = .ok (.int 8, false) := by
  show (match (if ((md.signBitMask &&& 1 : Nat) != 0) = true
      then (((1 : Nat) ^^^ md.intMaxValue) + 1) % 2 ^ 64 else 1) with
    | 1 => (.ok (.int 8, ((md.signBitMask &&& 1 : Nat) != 0)) :
        Except (Error × Pos) (LlvmType × Bool))
    | 2 => .ok (.int 16, ((md.signBitMask &&& 1 : Nat) != 0))
    | 4 => .ok (.int 32, ((md.signBitMask &&& 1 : Nat) != 0))
    | 8 => .ok (.int 64, ((md.signBitMask &&& 1 : Nat) != 0))
    | 16 => .ok (.int 128, ((md.signBitMask &&& 1 : Nat) != 0))
    | _ => .error (.InvalidTypeWidth, s)) = .ok (.int 8, false)
  rw [h]
  rfl

theorem typeFromWidth_two_pow_sub_four (w : Nat) (h32 : 32 < w) (h64 : w ≤ 64)
    (s e : Pos) :
    (AstNode.mk (.Constant (2 ^ w - 4)) s e).typeFromWidth ⟨w⟩ = .ok (.int 32, true) := by
  have hP : 4 ≤ 2 ^ (w - 1) := by
    calc (4 : Nat) = 2 ^ 2 := by norm_num
    _ ≤ 2 ^ (w - 1) := Nat.pow_le_pow_right (by norm_num) (by omega)
  have hpow : 2 ^ w = 2 * 2 ^ (w - 1) := by
    have hsa : 2 ^ (w - 1 + 1) = 2 ^ w := by
      rw [Nat.sub_add_cancel (by omega : 1 ≤ w)]
    rw [← hsa, pow_succ]
    ring
  have hneg : (((⟨w⟩ : MainData).signBitMask &&& (2 ^ w - 4) : Nat) != 0) = true := by
    show ((2 ^ (w - 1) &&& (2 ^ w - 4) : Nat) != 0) = true
    have hdiv : (2 ^ w - 4) / 2 ^ (w - 1) = 1 := Nat.div_eq_of_lt_le (by omega) (by omega)
    rw [and_single_bit_mask, Nat.testBit_to_div_mod, hdiv]
    rfl
  have hbw : (((2 ^ w - 4 : Nat) ^^^ (⟨w⟩ : MainData).intMaxValue) + 1) % 2 ^ 64 = 4 := by
    rw [show (⟨w⟩ : MainData).intMaxValue = 2 ^ w - 1 from rfl,
      xor_two_pow_sub_one w (2 ^ w - 4) (by omega)]
    omega
  show (match (if (((⟨w⟩ : MainData).signBitMask &&& (2 ^ w - 4) : Nat) != 0) = true
      then (((2 ^ w - 4 : Nat) ^^^ (⟨w⟩ : MainData).intMaxValue) + 1) % 2 ^ 64
      else (2 ^ w - 4)) with
    | 1 => (.ok (.int 8, (((⟨w⟩ : MainData).signBitMask &&& (2 ^ w - 4) : Nat) != 0)) :
        Except (Error × Pos) (LlvmType × Bool))
    | 2 => .ok (.int 16, (((⟨w⟩ : MainData).signBitMask &&& (2 ^ w - 4) : Nat) != 0))
    | 4 => .ok (.int 32, (((⟨w⟩ : MainData).signBitMask &&& (2 ^ w - 4) : Nat) != 0))
    | 8 => .ok (.int 64, (((⟨w⟩ : MainData).signBitMask &&& (2 ^ w - 4) : Nat) != 0))
    | 16 => .ok (.int 128, (((⟨w⟩ : MainData).signBitMask &&& (2 ^ w - 4) : Nat) != 0))
    | _ => .error (.InvalidTypeWidth, s)) = .ok (.int 32, true)
  rw [hneg, hbw]
  rfl

theorem compare_nat_gt (a b : Nat) (h : b < a) : compare a b = Ordering.gt := by
  simp [Nat.compare_eq_gt, h]

end BCZ

namespace BCZ

theorem convertArgument_lt (md : MainData) (a : Val) (t : LlvmType) (signed : Bool)
    (b : Builder) (hc : compare md.intBitWidth t.sizeInBits = .lt) :
    convertArgument md a t signed b
      = (if signed then b.emit (.sext a t.sizeInBits) else b.emit (.zext a t.sizeInBits)) := by
  rw [convertArgument.eq_def, hc]
  cases signed <;> rfl

theorem convertArgument_eq (md : MainData) (a : Val) (t : LlvmType) (signed : Bool)
    (b : Builder) (hc : compare md.intBitWidth t.sizeInBits = .eq) :
    convertArgument md a t signed b = (a, b) := by
  rw [convertArgument.eq_def, hc]

theorem convertArgument_gt (md : MainData) (a : Val) (t : LlvmType) (signed : Bool)
    (b : Builder) (hc : compare md.intBitWidth t.sizeInBits = .gt) :
    convertArgument md a t signed b = b.emit (.trunc a t.sizeInBits) := by
  rw [convertArgument.eq_def, hc]

theorem convertReturn_lt (md : MainData) (r : Val) (t : LlvmType) (signed : Bool)
    (b : Builder) (hc : compare md.intBitWidth t.sizeInBits = .lt) :
    convertReturn md r t signed b = b.emit (.trunc r md.intBitWidth) := by
  rw [convertReturn.eq_def, hc]

theorem convertReturn_eq (md : MainData) (r : Val) (t : LlvmType) (signed : Bool)
    (b : Builder) (hc : compare md.intBitWidth t.sizeInBits = .eq) :
    convertReturn md r t signed b = (r, b) := by
  rw [convertReturn.eq_def, hc]

theorem convertReturn_gt (md : MainData) (r : Val) (t : LlvmType) (signed : Bool)
    (b : Builder) (hc : compare md.intBitWidth t.sizeInBits = .gt) :
    convertReturn md r t signed b
      = (if signed then b.emit (.sext r md.intBitWidth) else b.emit (.zext r md.intBitWidth)) := by
  rw [convertReturn.eq_def, hc]
  cases signed <;> rfl

/-- Definitional shape of the link branch of `buildFunctionDefinition`. -/
theorem buildFunctionDefinition_link_eq (md : MainData) (ps : List AstNode) (b : AstNode)
    (s : Pos) (fbd : FileBuildData) (name : String) :
    buildFunctionDefinition md (.FunctionDefinition ps b) s fbd name true false
      = (if ps.length > 65535 then
          (.error (.error .TooManyFunctionParameters s) :
            Except Issue (Val × FileBuildData × List Instr))
        else
          match (match typeFromWidthList ps md with
            | .error (e, p) => (.error (.error e p) : Except Issue (List Instr))
            | .ok wrappedParameterTypes =>
              match b.typeFromWidth md with
              | .error (e, p) => (.error (.error e p) : Except Issue (List Instr))
              | .ok (wrappedReturnType, wrappedReturnTypeIsSigned) =>
                .ok ((convertReturn md
                    (Val.instr (convertArguments md wrappedParameterTypes 0 ⟨[]⟩).2.instrs.length)
                    wrappedReturnType wrappedReturnTypeIsSigned
                    (⟨(convertArguments md wrappedParameterTypes 0 ⟨[]⟩).2.instrs
                      ++ [Instr.call (Val.function name)
                            (convertArguments md wrappedParameterTypes 0 ⟨[]⟩).1]⟩ :
                      Builder)).2.instrs
                  ++ [Instr.ret (convertReturn md
                      (Val.instr (convertArguments md wrappedParameterTypes 0 ⟨[]⟩).2.instrs.length)
                      wrappedReturnType wrappedReturnTypeIsSigned
                      (⟨(convertArguments md wrappedParameterTypes 0 ⟨[]⟩).2.instrs
                        ++ [Instr.call (Val.function name)
                              (convertArguments md wrappedParameterTypes 0 ⟨[]⟩).1]⟩ :
                        Builder)).1])) with
          | .error e => (.error e : Except Issue (Val × FileBuildData × List Instr))
          | .ok functionInstrs =>
            .ok (.funcPtrToInt ("__bcz__link__" ++ name), fbd, functionInstrs)) := rfl

theorem buildFunctionDefinition_link_forward (md : MainData) (ps : List AstNode)
    (b : AstNode) (s : Pos) (fbd : FileBuildData) (name : String)
    (wrapped : List (LlvmType × Bool)) (retT : LlvmType) (retSigned : Bool)
    (args : List Val) (builder₁ : Builder) (crc : Val) (builder₂ : Builder)
    (hps : ¬ ps.length > 65535)
    (h1 : typeFromWidthList ps md = .ok wrapped)
    (h2 : b.typeFromWidth md = .ok (retT, retSigned))
    (h3 : convertArguments md wrapped 0 ⟨[]⟩ = (args, builder₁))
    (h4 : convertReturn md (.instr builder₁.instrs.length) retT retSigned
        (⟨builder₁.instrs ++ [.call (.function name) args]⟩ : Builder) = (crc, builder₂)) :
    buildFunctionDefinition md (.FunctionDefinition ps b) s fbd name true false
      = .ok (.funcPtrToInt ("__bcz__link__" ++ name), fbd,
          builder₂.instrs ++ [.ret crc]) := by
  rw [buildFunctionDefinition_link_eq, if_neg hps, h1]
  simp only []
  rw [h2]
  simp only [h3]
  rw [h4]

end BCZ

namespace BCZ

theorem link_fn_scenario (w : Nat) (h32 : 32 < w) (h64 : w ≤ 64)
    (name : String) (fbd : FileBuildData) :
    buildFunctionDefinition ⟨w⟩ (linkFnNode w).variant ⟨1, 1⟩ fbd name false false
      = .ok (.funcPtrToInt ("__bcz__link__" ++ name), fbd,
          [.trunc (.param 0) 8, .call (.function name) [.instr 0],
           .sext (.instr 1) w, .ret (.instr 2)]) := by
  have hone : (((⟨w⟩ : MainData).signBitMask &&& 1 : Nat) != 0) = false := by
    show ((2 ^ (w - 1) &&& 1 : Nat) != 0) = false
    have hlt : (1 : Nat) < 2 ^ (w - 1) := Nat.one_lt_two_pow_iff.mpr (by omega)
    have hdiv : (1 : Nat) / 2 ^ (w - 1) = 0 := Nat.div_eq_of_lt hlt
    rw [and_single_bit_mask, Nat.testBit_to_div_mod, hdiv]
    rfl
  have h1 : typeFromWidthList [AstNode.mk (.Constant 1) ⟨1, 10⟩ ⟨1, 11⟩] ⟨w⟩
      = .ok [(.int 8, false)] :=
    tfwl_singleton _ _ _ (typeFromWidth_one ⟨w⟩ ⟨1, 10⟩ ⟨1, 11⟩ hone)
  have h2 : (AstNode.mk (.Constant (2 ^ w - 4)) ⟨1, 14⟩ ⟨1, 16⟩).typeFromWidth ⟨w⟩
      = .ok (.int 32, true) := typeFromWidth_two_pow_sub_four w h32 h64 ⟨1, 14⟩ ⟨1, 16⟩
  have hca : convertArgument ⟨w⟩ (.param 0) (.int 8) false ⟨[]⟩
      = (.instr 0, (⟨[.trunc (.param 0) 8]⟩ : Builder)) := by
    rw [convertArgument_gt ⟨w⟩ (.param 0) (.int 8) false ⟨[]⟩
      (compare_nat_gt w 8 (by omega))]
    rfl
  have h3 : convertArguments ⟨w⟩ [((.int 8 : LlvmType), false)] 0 ⟨[]⟩
      = ([.instr 0], (⟨[.trunc (.param 0) 8]⟩ : Builder)) := by
    show ((convertArgument ⟨w⟩ (.param 0) (.int 8) false ⟨[]⟩).1 :: [],
        (convertArgument ⟨w⟩ (.param 0) (.int 8) false ⟨[]⟩).2)
      = ([.instr 0], (⟨[.trunc (.param 0) 8]⟩ : Builder))
    rw [hca]
  have h4 : convertReturn ⟨w⟩
      (.instr (Builder.instrs ⟨[.trunc (.param 0) 8]⟩).length) (.int 32) true
      (⟨(Builder.instrs ⟨[.trunc (.param 0) 8]⟩)
        ++ [.call (.function name) [.instr 0]]⟩ : Builder)
      = (.instr 2, (⟨[.trunc (.param 0) 8, .call (.function name) [.instr 0],
          .sext (.instr 1) w]⟩ : Builder)) := by
    rw [convertReturn_gt ⟨w⟩ _ (.int 32) true _ (compare_nat_gt w 32 (by omega))]
    rfl
  exact buildFunctionDefinition_link_forward ⟨w⟩
    [AstNode.mk (.Constant 1) ⟨1, 10⟩ ⟨1, 11⟩]
    (AstNode.mk (.Constant (2 ^ w - 4)) ⟨1, 14⟩ ⟨1, 16⟩) ⟨1, 5⟩ fbd name
    [((.int 8 : LlvmType), false)] (.int 32) true
    [.instr 0] (⟨[.trunc (.param 0) 8]⟩ : Builder)
    (.instr 2)
    (⟨[.trunc (.param 0) 8, .call (.function name) [.instr 0],
       .sext (.instr 1) w]⟩ : Builder)
    (by decide) h1 h2 h3 h4

end BCZ

namespace BCZ

/-- C2 (amended): the conversions of the link-function thunk are chosen by a
three-way width comparison where equal widths emit no conversion instruction:
before the external call an argument is zero- or sign-extended to the
parameter width when the uniform width is narrower, passed through when equal,
and truncated when wider; after the call the result is truncated when the
uniform width is narrower than the return width, passed through when equal,
and zero- or sign-extended when wider.  Hence for a link function with an
8-bit unsigned parameter and a 32-bit signed return called at a uniform width
exceeding 32 bits, the instruction before the external call is a truncation
to 8 bits (not a zero-extension), and the instruction after it is the
sign-extension back to the uniform width. -/
theorem link_function_width_conversions :
    (∀ (md : MainData) (a : Val) (t : LlvmType) (signed : Bool) (b : Builder),
      (compare md.intBitWidth t.sizeInBits = .lt →
        convertArgument md a t signed b
          = (if signed then b.emit (.sext a t.sizeInBits)
             else b.emit (.zext a t.sizeInBits)))
      ∧ (compare md.intBitWidth t.sizeInBits = .eq →
        convertArgument md a t signed b = (a, b))
      ∧ (compare md.intBitWidth t.sizeInBits = .gt →
        convertArgument md a t signed b = b.emit (.trunc a t.sizeInBits)))
    ∧ (∀ (md : MainData) (r : Val) (t : LlvmType) (signed : Bool) (b : Builder),
      (compare md.intBitWidth t.sizeInBits = .lt →
        convertReturn md r t signed b = b.emit (.trunc r md.intBitWidth))
      ∧ (compare md.intBitWidth t.sizeInBits = .eq →
        convertReturn md r t signed b = (r, b))
      ∧ (compare md.intBitWidth t.sizeInBits = .gt →
        convertReturn md r t signed b
          = (if signed then b.emit (.sext r md.intBitWidth)
             else b.emit (.zext r md.intBitWidth))))
    ∧ (∀ (w : Nat), 32 < w → w ≤ 64 → ∀ (name : String) (fbd : FileBuildData),
      buildFunctionDefinition ⟨w⟩ (linkFnNode w).variant ⟨1, 1⟩ fbd name false false
        = .ok (.funcPtrToInt ("__bcz__link__" ++ name), fbd,
            [.trunc (.param 0) 8, .call (.function name) [.instr 0],
             .sext (.instr 1) w, .ret (.instr 2)])) := by
  refine ⟨?_, ?_, ?_⟩
  · intro md a t signed b
    exact ⟨convertArgument_lt md a t signed b, convertArgument_eq md a t signed b,
      convertArgument_gt md a t signed b⟩
  · intro md r t signed b
    exact ⟨convertReturn_lt md r t signed b, convertReturn_eq md r t signed b,
      convertReturn_gt md r t signed b⟩
  · intro w h32 h64 name fbd
    exact link_fn_scenario w h32 h64 name fbd

/-- C2 counterexample to the original claim: a link function with an 8-bit
unsigned parameter and a 32-bit signed return, lowered at uniform width 64,
truncates the argument to 8 bits before the external call — no
zero-extension instruction occurs anywhere in the thunk. -/
theorem link_call_wide_uniform_truncates :
    buildFunctionDefinition ⟨64⟩ (linkFnNode 64).variant ⟨1, 1⟩ ⟨[], none⟩ "Beep"
        false false
      = .ok (.funcPtrToInt "__bcz__link__Beep", ⟨[], none⟩,
          [.trunc (.param 0) 8, .call (.function "Beep") [.instr 0],
           .sext (.instr 1) 64, .ret (.instr 2)])
    ∧ ([Instr.trunc (.param 0) 8, .call (.function "Beep") [.instr 0],
        .sext (.instr 1) 64, .ret (.instr 2)].countP
          (fun i => match i with | .zext _ _ => true | _ => false)) = 0 :=
  ⟨link_fn_scenario 64 (by decide) (by decide) "Beep" ⟨[], none⟩, by decide⟩

/-- C2 witness: the equal-width pass-through (uniform width 8 against the
8-bit parameter emits nothing) and the corrected wide-uniform scenario at
width 33. -/
theorem link_function_width_conversions_witness :
    convertArgument ⟨8⟩ (.param 0) (.int 8) false ⟨[]⟩ = (.param 0, (⟨[]⟩ : Builder))
    ∧ buildFunctionDefinition ⟨33⟩ (linkFnNode 33).variant ⟨1, 1⟩ ⟨[], none⟩ "f"
        false false
      = .ok (.funcPtrToInt "__bcz__link__f", ⟨[], none⟩,
          [.trunc (.param 0) 8, .call (.function "f") [.instr 0],
           .sext (.instr 1) 33, .ret (.instr 2)]) := by
  constructor
  · exact (link_function_width_conversions.1 ⟨8⟩ (.param 0) (.int 8) false ⟨[]⟩).2.1 rfl
  · exact link_function_width_conversions.2.2 33 (by decide) (by decide) "f" ⟨[], none⟩

end BCZ

namespace BCZ

theorem findSome_none {α β : Type} (f : α → Option β) :
    ∀ (l : List α), (∀ s ∈ l, f s = none) → l.findSome? f = none := by
  intro l h
  induction l with
  | nil => rfl
  | cons a rest ih =>
    rw [List.findSome?_cons]
    rw [h a (by simp)]
    exact ih (fun s hs => h s (by simp [hs]))

theorem findSome_append {α β : Type} (f : α → Option β) (l₁ l₂ : List α)
    (h : l₁.findSome? f = none) : (l₁ ++ l₂).findSome? f = l₂.findSome? f := by
  induction l₁ with
  | nil => rfl
  | cons a rest ih =>
    rw [List.cons_append, List.findSome?_cons]
    rw [List.findSome?_cons] at h
    cases hfa : f a with
    | none =>
      rw [hfa] at h
      exact ih h
    | some v => rw [hfa] at h; exact absurd h (by simp)

theorem lookupScopes_innermost_first (pre : List Scope) (scope : Scope)
    (suf : List Scope) (name : String) (lv : BuiltLValue)
    (hhit : scope.lookup name = some lv)
    (hmiss : ∀ s ∈ suf, s.lookup name = none) :
    lookupScopes (pre ++ scope :: suf) name = some lv := by
  show ((pre ++ scope :: suf).reverse).findSome? (fun sc => sc.lookup name) = some lv
  rw [List.reverse_append, List.reverse_cons, List.append_assoc]
  rw [findSome_append _ _ _ (findSome_none _ _ (fun s hs => hmiss s (by simpa using hs)))]
  rw [List.cons_append, List.findSome?_cons, hhit]

end BCZ

namespace BCZ

theorem getVariableByName_hit (fbd : FileBuildData) (builder : Builder)
    (locals : List Scope) (name : String) (lv : BuiltLValue)
    (h : lookupScopes locals name = some lv) :
    getVariableByName fbd builder locals name = .ok (lv.getValue builder) := by
  rw [getVariableByName, h]

theorem getVariableByName_miss (fbd : FileBuildData) (builder : Builder)
    (locals : List Scope) (name : String)
    (h : lookupScopes locals name = none) :
    getVariableByName fbd builder locals name
      = (match fbd.builtGlobals.lookup name with
        | some v => (.ok (v, builder) : Except Issue (Val × Builder))
        | none => .error .panic) := by
  rw [getVariableByName, h]

theorem buildLValue_hit (md : MainData) (builder : Builder) (locals : List Scope)
    (name : String) (s e : Pos) (lv : BuiltLValue)
    (h : lookupScopes locals name = some lv) :
    buildLValue md (.mk (.Identifier name) s e) builder locals
      = .ok (lv, builder, locals) := by
  show (match lookupScopes locals name with
    | some var => (.ok (var, builder, locals) :
        Except Issue (BuiltLValue × Builder × List Scope))
    | none =>
      match locals.getLast? with
      | none => .error .panic
      | some innermost =>
        .ok (BuiltLValue.AllocaVariable (Val.instr builder.instrs.length),
          (⟨builder.instrs ++ [Instr.alloca name]⟩ : Builder),
          locals.dropLast
            ++ [(name, BuiltLValue.AllocaVariable (.instr builder.instrs.length))
                :: innermost])) = .ok (lv, builder, locals)
  rw [h]

theorem buildLValue_miss (md : MainData) (builder : Builder) (init : List Scope)
    (inner : Scope) (name : String) (s e : Pos)
    (h : lookupScopes (init ++ [inner]) name = none) :
    buildLValue md (.mk (.Identifier name) s e) builder (init ++ [inner])
      = .ok (.AllocaVariable (.instr builder.instrs.length),
          (⟨builder.instrs ++ [Instr.alloca name]⟩ : Builder),
          init ++ [(name, .AllocaVariable (.instr builder.instrs.length)) :: inner]) := by
  show (match lookupScopes (init ++ [inner]) name with
    | some var => (.ok (var, builder, init ++ [inner]) :
        Except Issue (BuiltLValue × Builder × List Scope))
    | none =>
      match (init ++ [inner]).getLast? with
      | none => .error .panic
      | some innermost =>
        .ok (BuiltLValue.AllocaVariable (Val.instr builder.instrs.length),
          (⟨builder.instrs ++ [Instr.alloca name]⟩ : Builder),
          (init ++ [inner]).dropLast
            ++ [(name, BuiltLValue.AllocaVariable (Val.instr builder.instrs.length))
                :: innermost]))
    = .ok (.AllocaVariable (.instr builder.instrs.length),
        (⟨builder.instrs ++ [Instr.alloca name]⟩ : Builder),
        init ++ [(name, .AllocaVariable (.instr builder.instrs.length)) :: inner])
  rw [h, List.getLast?_concat, List.dropLast_concat]

end BCZ

namespace BCZ

/-- C7: identifier lookup during code generation walks the scope stack from
the innermost scope outward (the stack holds the innermost scope last and the
walk reverses it) and the first binding found wins; an r-value lookup that
misses every scope falls through to the already-built globals table and
creates no binding (the local scopes are not even returned), while an l-value
lookup that misses every scope allocates a new stack slot and registers it in
the innermost scope only. -/
theorem scope_stack_lookup :
    (∀ (pre : List Scope) (scope : Scope) (suf : List Scope) (name : String)
        (lv : BuiltLValue),
      scope.lookup name = some lv →
      (∀ s ∈ suf, s.lookup name = none) →
      lookupScopes (pre ++ scope :: suf) name = some lv)
    ∧ (∀ (fbd : FileBuildData) (builder : Builder) (locals : List Scope)
        (name : String) (lv : BuiltLValue),
      lookupScopes locals name = some lv →
      getVariableByName fbd builder locals name = .ok (lv.getValue builder))
    ∧ (∀ (fbd : FileBuildData) (builder : Builder) (locals : List Scope)
        (name : String),
      lookupScopes locals name = none →
      getVariableByName fbd builder locals name
        = (match fbd.builtGlobals.lookup name with
          | some v => (.ok (v, builder) : Except Issue (Val × Builder))
          | none => .error .panic))
    ∧ (∀ (md : MainData) (builder : Builder) (locals : List Scope) (name : String)
        (s e : Pos) (lv : BuiltLValue),
      lookupScopes locals name = some lv →
      buildLValue md (.mk (.Identifier name) s e) builder locals
        = .ok (lv, builder, locals))
    ∧ (∀ (md : MainData) (builder : Builder) (init : List Scope) (inner : Scope)
        (name : String) (s e : Pos),
      lookupScopes (init ++ [inner]) name = none →
      buildLValue md (.mk (.Identifier name) s e) builder (init ++ [inner])
        = .ok (.AllocaVariable (.instr builder.instrs.length),
            (⟨builder.instrs ++ [Instr.alloca name]⟩ : Builder),
            init ++ [(name, .AllocaVariable (.instr builder.instrs.length)) :: inner])) := by
  refine ⟨?_, ?_, ?_, ?_, ?_⟩
  · intro pre scope suf name lv hhit hmiss
    exact lookupScopes_innermost_first pre scope suf name lv hhit hmiss
  · intro fbd builder locals name lv h
    exact getVariableByName_hit fbd builder locals name lv h
  · intro fbd builder locals name h
    exact getVariableByName_miss fbd builder locals name h
  · intro md builder locals name s e lv h
    exact buildLValue_hit md builder locals name s e lv h
  · intro md builder init inner name s e h
    exact buildLValue_miss md builder init inner name s e h

/-- C7 witness: with an outer binding of `x` shadowed by an inner one the
inner binding wins; an l-value miss for `y` over the two-scope stack
allocates a slot and registers it in the innermost scope only. -/
theorem scope_stack_lookup_witness :
    lookupScopes ([[("x", BuiltLValue.AllocaVariable (.constInt 7))]]
        ++ [("x", BuiltLValue.AllocaVariable (.instr 5))] :: [])
      "x" = some (.AllocaVariable (.instr 5))
    ∧ buildLValue ⟨64⟩ (.mk (.Identifier "y") ⟨1, 1⟩ ⟨1, 2⟩) ⟨[]⟩
        ([[("x", BuiltLValue.AllocaVariable (.constInt 7))]] ++ [[]])
      = .ok (.AllocaVariable (.instr 0), (⟨[Instr.alloca "y"]⟩ : Builder),
          [[("x", BuiltLValue.AllocaVariable (.constInt 7))]]
            ++ [[("y", BuiltLValue.AllocaVariable (.instr 0))]]) := by
  constructor
  · exact scope_stack_lookup.1 [[("x", BuiltLValue.AllocaVariable (.constInt 7))]]
      [("x", BuiltLValue.AllocaVariable (.instr 5))] [] "x"
      (.AllocaVariable (.instr 5)) rfl (by simp)
  · exact scope_stack_lookup.2.2.2.2 ⟨64⟩ ⟨[]⟩
      [[("x", BuiltLValue.AllocaVariable (.constInt 7))]] [] "y" ⟨1, 1⟩ ⟨1, 2⟩ rfl

end BCZ
